import Mathlib

/-!
# LCD Keypad Shield driver (`lcd162.c`): embedding and verification

The driver talks to an HD44780 controller over a four-bit bus made of six
output lines spread over three AVR port registers:

* RS  = PORTH bit 5, E = PORTH bit 6,
* DB7 = PORTH bit 4, DB6 = PORTH bit 3, DB5 = PORTE bit 3, DB4 = PORTG bit 5.

The embedding keeps the three port registers, the three direction registers
and a ghost trace of everything the code does that is visible from outside:
every register write (with the value written), every `_NOP()`, and every
`_delay_us` / `_delay_ms` call.  Code that can fail to return (loops over an
eight-bit counter) is modelled with fuel and returns `Option`.
-/

namespace LCD162

/-! ## Machine model -/

/-- One externally visible action of the driver. -/
inductive Ev where
  | wPORTH (v : Nat)
  | wPORTE (v : Nat)
  | wPORTG (v : Nat)
  | wDDRH (v : Nat)
  | wDDRE (v : Nat)
  | wDDRG (v : Nat)
  | nop
  | delay_us (n : Nat)
  | delay_ms (n : Nat)
  deriving DecidableEq, Repr

/-- The registers the driver touches, and the ghost trace (oldest event first). -/
structure State where
  PORTH : Nat
  PORTE : Nat
  PORTG : Nat
  DDRH : Nat
  DDRE : Nat
  DDRG : Nat
  trace : List Ev
  deriving DecidableEq, Repr

/-- The registers after a reset of the microcontroller, with nothing done yet. -/
def State.reset : State := ⟨0, 0, 0, 0, 0, 0, []⟩

/-- Assignment to the 8-bit register `PORTH`. -/
def State.setPORTH (s : State) (v : Nat) : State :=
  { s with PORTH := v % 256, trace := s.trace ++ [Ev.wPORTH (v % 256)] }

/-- Assignment to the 8-bit register `PORTE`. -/
def State.setPORTE (s : State) (v : Nat) : State :=
  { s with PORTE := v % 256, trace := s.trace ++ [Ev.wPORTE (v % 256)] }

/-- Assignment to the 8-bit register `PORTG`. -/
def State.setPORTG (s : State) (v : Nat) : State :=
  { s with PORTG := v % 256, trace := s.trace ++ [Ev.wPORTG (v % 256)] }

/-- Assignment to the 8-bit register `DDRH`. -/
def State.setDDRH (s : State) (v : Nat) : State :=
  { s with DDRH := v % 256, trace := s.trace ++ [Ev.wDDRH (v % 256)] }

/-- Assignment to the 8-bit register `DDRE`. -/
def State.setDDRE (s : State) (v : Nat) : State :=
  { s with DDRE := v % 256, trace := s.trace ++ [Ev.wDDRE (v % 256)] }

/-- Assignment to the 8-bit register `DDRG`. -/
def State.setDDRG (s : State) (v : Nat) : State :=
  { s with DDRG := v % 256, trace := s.trace ++ [Ev.wDDRG (v % 256)] }

/-- The `_NOP()` instruction: one clock cycle, no register changes. -/
def State.NOP (s : State) : State :=
  { s with trace := s.trace ++ [Ev.nop] }

/-- The library busy-wait `_delay_us(n)`. -/
def State.delay_us (s : State) (n : Nat) : State :=
  { s with trace := s.trace ++ [Ev.delay_us n] }

/-- The library busy-wait `_delay_ms(n)`. -/
def State.delay_ms (s : State) (n : Nat) : State :=
  { s with trace := s.trace ++ [Ev.delay_ms n] }

/-! ## Private operations of `lcd162.c` -/

/-- Value of a plain `char` with 8-bit pattern `i` after integer promotion.
Whether plain `char` is signed is a compiler setting, so it is a parameter
(`sc = true`: signed, `sc = false`: unsigned). -/
def charVal (sc : Bool) (i : Nat) : Int :=
  if sc && decide (128 ≤ i) then (i : Int) - 256 else (i : Int)

/-- The loop `for (char i = ...; i < nops; i++) _NOP();` of `wait_ns`, entered
with counter pattern `i`.  `none` when the fuel runs out. -/
def wait_ns_loop (sc : Bool) : Nat → Nat → Nat → State → Option State
  | 0, _, _, _ => none
  | fuel + 1, i, nops, s =>
    if charVal sc i < (nops : Int) then
      wait_ns_loop sc fuel ((i + 1) % 256) nops s.NOP
    else
      some s

/-- `static void wait_ns(uint16_t time)`.  The counter of the loop has only 256
patterns and `nops` does not change, so a run that has not left the loop after
256 iterations never does: 257 units of fuel decide termination. -/
def wait_ns (sc : Bool) (time : Nat) (s : State) : Option State :=
  let time := time % 65536
  let nops := (time / 63) % 256
  let nops := if time % 63 ≠ 0 then (nops + 1) % 256 else nops
  wait_ns_loop sc 257 0 nops s

/-- `static void pulse_E()`. -/
def pulse_E (sc : Bool) (s : State) : Option State := do
  let s := s.setPORTH (s.PORTH ||| 0b01000000)
  let s ← wait_ns sc 450 s
  let s := s.setPORTH (s.PORTH &&& 0b10111111)
  wait_ns sc 50 s

/-- `static void set4DataPins(unsigned char data)`. -/
def set4DataPins (data : Nat) (s : State) : State :=
  let s := s.setPORTH ((s.PORTH &&& 0b11100111) ||| ((data <<< 1) &&& 0b00011000))
  let s := s.setPORTE ((s.PORTE &&& 0b11110111) ||| ((data <<< 2) &&& 0b00001000))
  s.setPORTG ((s.PORTG &&& 0b11011111) ||| ((data <<< 5) &&& 0b00100000))

/-- `static void setPins(unsigned char data8)`. -/
def setPins (sc : Bool) (data8 : Nat) (s : State) : Option State := do
  let s := set4DataPins ((data8 >>> 4) % 256) s
  let s ← pulse_E sc s
  let s := set4DataPins data8 s
  pulse_E sc s

/-- `static void sendInstruction(unsigned char data)`. -/
def sendInstruction (sc : Bool) (data : Nat) (s : State) : Option State := do
  let s := s.setPORTH (s.PORTH &&& 0b11011111)
  let s ← wait_ns sc 40 s
  setPins sc data s

/-- `static void sendData(unsigned char data)`. -/
def sendData (sc : Bool) (data : Nat) (s : State) : Option State := do
  let s := s.setPORTH (s.PORTH ||| 0b00100000)
  let s ← wait_ns sc 40 s
  let s ← setPins sc data s
  some (s.delay_us 37)

/-! ## Public operations of `lcd162.c` -/

/-- `void LCDInit()`. -/
def LCDInit (sc : Bool) (s : State) : Option State := do
  let s := s.setDDRH (s.DDRH ||| 0b01111000)
  let s := s.setDDRE (s.DDRE ||| 0b00001000)
  let s := s.setDDRG (s.DDRG ||| 0b00100000)
  let s := s.delay_ms 50
  let s := s.setPORTG (s.PORTG ||| 0b00100000)
  let s := s.setPORTE (s.PORTE ||| 0b00001000)
  let s ← pulse_E sc s
  let s := s.delay_ms 10
  let s ← pulse_E sc s
  let s := s.delay_ms 10
  let s ← pulse_E sc s
  let s := s.delay_ms 10
  let s := s.setPORTG (s.PORTG &&& 0b11011111)
  let s ← pulse_E sc s
  let s ← sendInstruction sc 0b00101000 s
  let s := s.delay_us 37
  let s ← sendInstruction sc 0b00001000 s
  let s := s.delay_us 37
  let s ← sendInstruction sc 0b00000001 s
  let s := s.delay_us 1520
  let s ← sendInstruction sc 0b00000110 s
  let s := s.delay_us 37
  let s ← sendInstruction sc 0b00001100 s
  some (s.delay_us 37)

/-- `void LCDClear()`. -/
def LCDClear (sc : Bool) (s : State) : Option State := do
  let s ← sendInstruction sc 0b00000001 s
  some (s.delay_us 1520)

/-- `void LCDGotoXY(unsigned char x, unsigned char y)`. -/
def LCDGotoXY (sc : Bool) (x y : Nat) (s : State) : Option State :=
  if y > 1 then
    some s
  else do
    let adr := ((y * 0x40) + (x % 16)) % 256
    let tmp := (0b10000000 ||| adr) % 256
    let s ← sendInstruction sc tmp s
    some (s.delay_us 37)

/-- `void LCDDispChar(char ch)`; `ch` is the 8-bit pattern of the character,
which is what the conversion to `unsigned char` at the call of `sendData`
yields whether plain `char` is signed or not. -/
def LCDDispChar (sc : Bool) (ch : Nat) (s : State) : Option State :=
  sendData sc (ch % 256) s

/-- The `while` loop of `LCDDispString`, entered with counter `i` and `flag`.
`str` is the memory content from the address passed in; a read past its end
is undefined behaviour (`none`), as is running out of fuel. -/
def LCDDispString_loop (sc : Bool) (str : List Nat) : Nat → Nat → Nat → State → Option State
  | 0, _, _, _ => none
  | fuel + 1, i, flag, s =>
    match str[i]? with
    | none => none
    | some ch =>
      if ch ≠ 0 then do
        let s ← LCDDispChar sc ch s
        let i := (i + 1) % 256
        if i > 15 ∧ flag = 1 then do
          let s ← LCDGotoXY sc 0 1 s
          LCDDispString_loop sc str fuel i 0 s
        else
          LCDDispString_loop sc str fuel i flag s
      else
        some s

/-- `void LCDDispString(char* str)`.  The loop state that decides the control
flow is the 8-bit counter `i` (and `flag`, which changes once), and the memory
is not written, so a run still in the loop after 512 iterations never leaves
it: 513 units of fuel decide termination. -/
def LCDDispString (sc : Bool) (str : List Nat) (s : State) : Option State := do
  let s ← LCDClear sc s
  LCDDispString_loop sc str 513 0 1 s

/-- The digit loop of `itoa` for radix 10: the least significant digit is produced first
and the text is reversed at the end, so the digits are collected in front of `acc`.
The value shrinks at every round, so `n + 1` units of fuel are enough for `n`. -/
def itoa_loop : Nat → Nat → List Nat → List Nat
  | 0, _, acc => acc
  | fuel + 1, n, acc =>
    let acc := (48 + n % 10) :: acc
    if n / 10 = 0 then acc else itoa_loop fuel (n / 10) acc

/-- Modelled from the spec: the library function `itoa(val, s, 10)` of avr-libc
(`stdlib.h`) is called by `LCDDispInteger` but is not among the sources; the spec has it
"convert the integer to its decimal textual representation".  It is modelled as the usual
conversion: a minus sign (45) for a negative value, then the digits of the magnitude
(48..57) as found by repeated division by ten.  The result is the text without its NUL. -/
def itoa (val : Int) : List Nat :=
  if val < 0 then
    45 :: itoa_loop (val.natAbs + 1) val.natAbs []
  else
    itoa_loop (val.toNat + 1) val.toNat []

/-- `void LCDDispInteger(int i)`.  `stack` gives the indeterminate initial content of the
local array `unsigned char str[32]`; `itoa` overwrites its beginning with the text and a
NUL, and writing past the array is undefined behaviour (`none`). -/
def LCDDispInteger (sc : Bool) (i : Int) (stack : Nat → Nat) (s : State) : Option State :=
  let str := (List.range 32).map stack
  let text := itoa i
  if text.length + 1 ≤ 32 then
    LCDDispString sc (text ++ 0 :: str.drop (text.length + 1)) s
  else
    none

/-- The loop `for (unsigned char i = ...; i < 8; ++i) sendData(UDCTab[i]);` of
`LCDLoadUDC`, entered with counter `i`. -/
def LCDLoadUDC_loop (sc : Bool) (UDCTab : List Nat) : Nat → Nat → State → Option State
  | 0, _, _ => none
  | fuel + 1, i, s =>
    if i < 8 then
      match UDCTab[i]? with
      | none => none
      | some d => do
        let s ← sendData sc (d % 256) s
        LCDLoadUDC_loop sc UDCTab fuel ((i + 1) % 256) s
    else
      some s

/-- `void LCDLoadUDC(unsigned char UDCNo, const unsigned char *UDCTab)`; the
loop runs its body eight times and then fails its test once. -/
def LCDLoadUDC (sc : Bool) (UDCNo : Nat) (UDCTab : List Nat) (s : State) : Option State := do
  let address := (0x40 + (8 * UDCNo)) % 256
  let s ← sendInstruction sc address s
  LCDLoadUDC_loop sc UDCTab 9 0 s

/-- `void LCDOnOffControl(unsigned char cursor, unsigned char blink)`. -/
def LCDOnOffControl (sc : Bool) (cursor blink : Nat) (s : State) : Option State :=
  let command := 0b00001100
  let command := (command ||| (0b00000010 &&& (cursor <<< 1))) % 256
  let command := (command ||| (0b00000001 &&& blink)) % 256
  sendInstruction sc command s

/-- `void LCDCursorLeft()`. -/
def LCDCursorLeft (sc : Bool) (s : State) : Option State :=
  sendInstruction sc 0b00010000 s

/-- `void LCDCursorRight()`. -/
def LCDCursorRight (sc : Bool) (s : State) : Option State :=
  sendInstruction sc 0b00010100 s

/-- `void LCDShiftLeft()`. -/
def LCDShiftLeft (sc : Bool) (s : State) : Option State :=
  sendInstruction sc 0b00011000 s

/-- `void LCDShiftRight()`. -/
def LCDShiftRight (sc : Bool) (s : State) : Option State :=
  sendInstruction sc 0b00011100 s

/-! ## What the controller sees

The observer below watches the six lines as the trace unfolds.  The HD44780
latches RS and DB7..DB4 on the falling edge of E.  Time is counted in clock
cycles of 62.5 ns (16 MHz) and only explicit waits are counted: a `_NOP()` is
one cycle, `_delay_us(n)` is `16 * n` cycles, `_delay_ms(n)` is `16000 * n`
cycles; register writes are counted as taking no time, so every duration
recorded is a lower bound on the real one. -/

/-- Explicit waiting time of an event, in clock cycles. -/
def Ev.cycles : Ev → Nat
  | Ev.nop => 1
  | Ev.delay_us n => 16 * n
  | Ev.delay_ms n => 16000 * n
  | _ => 0

/-- One enable pulse as seen by the controller. -/
structure Latch where
  /-- register select (PORTH bit 5) when E falls -/
  rs : Bool
  /-- the value on DB7..DB4 when E falls -/
  nib : Nat
  /-- cycles waited between the previous falling edge (or the start) and the rising edge -/
  before : Nat
  /-- cycles waited while E was high -/
  high : Nat
  /-- RS and DB7..DB4 did not change while E was high -/
  steady : Bool
  deriving DecidableEq, Repr

/-- Observer state: the current register values, the pulse in progress and the
pulses completed so far (oldest first). -/
structure Bus where
  H : Nat
  E : Nat
  G : Nat
  /-- cycles waited since the last falling edge of E (or since the start) -/
  gap : Nat
  /-- `gap` at the last rising edge -/
  before : Nat
  /-- cycles waited since the last rising edge -/
  high : Nat
  /-- lines unchanged since the last rising edge -/
  steady : Bool
  done : List Latch
  deriving DecidableEq, Repr

/-- Level of the enable line E (PORTH bit 6). -/
def Bus.enable (b : Bus) : Bool := b.H.testBit 6

/-- Level of the register-select line RS (PORTH bit 5). -/
def Bus.rs (b : Bus) : Bool := b.H.testBit 5

/-- The nibble on DB7 (PORTH 4), DB6 (PORTH 3), DB5 (PORTE 3), DB4 (PORTG 5). -/
def Bus.nibble (b : Bus) : Nat :=
  8 * (b.H.testBit 4).toNat + 4 * (b.H.testBit 3).toNat
    + 2 * (b.E.testBit 3).toNat + (b.G.testBit 5).toNat

/-- Register values after an event. -/
def Bus.write (b : Bus) : Ev → Bus
  | Ev.wPORTH v => { b with H := v }
  | Ev.wPORTE v => { b with E := v }
  | Ev.wPORTG v => { b with G := v }
  | _ => b

/-- The observer's reaction to one event. -/
def Bus.step (b : Bus) (e : Ev) : Bus :=
  let b1 := b.write e
  let same := (b1.rs == b.rs) && (b1.nibble == b.nibble)
  match b.enable, b1.enable with
  | false, false => { b1 with gap := b.gap + e.cycles }
  | false, true => { b1 with before := b.gap, high := 0, steady := true }
  | true, true => { b1 with high := b.high + e.cycles, steady := b.steady && same }
  | true, false =>
    { b1 with gap := 0,
              done := b.done ++ [⟨b.rs, b.nibble, b.before, b.high, b.steady && same⟩] }

/-- The observer at the start of an operation entered in state `s`. -/
def Bus.init (s : State) : Bus :=
  ⟨s.PORTH, s.PORTE, s.PORTG, 0, 0, 0, true, []⟩

/-- The events an operation added to the trace when it took `s` to `t`. -/
def emitted (s t : State) : List Ev := t.trace.drop s.trace.length

/-- What the controller saw while an operation took `s` to `t`. -/
def observe (s t : State) : Bus := (emitted s t).foldl Bus.step (Bus.init s)

/-- One byte received in four-bit mode. -/
structure Transfer where
  /-- `false`: instruction register, `true`: data register -/
  rs : Bool
  byte : Nat
  /-- cycles waited after the second falling edge, until the next rising edge
  of E or the end of the observation -/
  settle : Nat
  deriving DecidableEq, Repr

/-- Pair up pulses into bytes, high nibble first.  `last` is the waiting time
after the final pulse.  `none` if a pulse is left over or RS differs between
the two halves of a byte. -/
def decode : List Latch → Nat → Option (List Transfer)
  | [], _ => some []
  | [_], _ => none
  | hi :: lo :: rest, last =>
    if hi.rs = lo.rs then
      (decode rest last).map fun ts =>
        ⟨hi.rs, 16 * hi.nib + lo.nib, (rest.head?.map Latch.before).getD last⟩ :: ts
    else
      none

/-- The bytes the controller received while an operation took `s` to `t`,
with the mode assumed to be four-bit throughout. -/
def received (s t : State) : Option (List Transfer) :=
  decode (observe s t).done (observe s t).gap

/-- A transfer without its timing. -/
def Transfer.wire (t : Transfer) : Bool × Nat := (t.rs, t.byte)


/-! ## Auxiliary notions for the proofs -/

/-- The observer state `b` carries the register values of `s`. -/
def Tracks (b : Bus) (s : State) : Prop :=
  b.H = s.PORTH ∧ b.E = s.PORTE ∧ b.G = s.PORTG

/-- Going from `s` to `t` only appended events to the trace, and these events
take the observer from `b` to `c`. -/
def Watch (s t : State) (b c : Bus) : Prop :=
  ∃ evs, t.trace = s.trace ++ evs ∧ evs.foldl Bus.step b = c

/-- The bytes the observer has received so far, timing dropped. -/
def Bus.wires (b : Bus) : Option (List (Bool × Nat)) :=
  (decode b.done b.gap).map (List.map Transfer.wire)

/-- The bytes the controller received while an operation took `s` to `t`, each
with its register select, timing dropped. -/
def sent (s t : State) : Option (List (Bool × Nat)) :=
  (received s t).map (List.map Transfer.wire)

/-- What `LCDDispString` puts on the bus for the characters `cs` when the first of them
has index `i`: each character as data, with the row-1 address instruction 0xC0 right after
the character of index 15. -/
def wiresFrom : Nat → List Nat → List (Bool × Nat)
  | _, [] => []
  | i, x :: cs => (true, x) :: ((if i = 15 then [(false, 0xC0)] else []) ++ wiresFrom (i + 1) cs)

/-- The decimal text of an integer, as character codes: Lean's own rendering of the
number, which has a leading `-` for a negative value and no leading zeros.  This is the
reference the driver's conversion is compared with. -/
def decimalText (v : Int) : List Nat :=
  (toString v).toList.map Char.toNat

/-! ## Time in nanoseconds

One clock cycle at 16 MHz is 62.5 ns, so durations are compared in units of half a
nanosecond. -/

/-- The duration of `cycles` clock cycles, in half nanoseconds. -/
def halfNs (cycles : Nat) : Nat := 125 * cycles

/-- The state after `n` further `_NOP()` instructions. -/
def State.NOPs (s : State) (n : Nat) : State :=
  { s with trace := s.trace ++ List.replicate n Ev.nop }

/-! ## Keys and backlight -/

/-- `unsigned char readKeys()`: the value returned, as a function of `ADC`, the conversion
result read from the converter once the wait loop has ended, and of `ACD`, an identifier
the source uses but never declares, taken as a parameter.  The writes that set up the
converter (DDRF, ADMUX, ADCSRA) and the wait for the hardware to finish only touch the
converter and are not part of the model.  The characters returned are 'N' = 78, 'R' = 82,
'U' = 85, 'D' = 68, 'L' = 76 and 'S' = 83. -/
def readKeys (ADC ACD : Nat) : Nat :=
  if ADC > 1023 then 78
  else if ADC < 1 then 82
  else if ADC = 99 ∨ ACD = 98 then 85
  else if ADC = 256 then 68
  else if ADC = 409 then 76
  else if ADC = 640 then 83
  else 78

/-- The bits of the three port registers that are not LCD lines (PORTH outside 0x78,
PORTE outside 0x08, PORTG outside 0x20) are the same in `t` as in `s`. -/
def Frame (s t : State) : Prop :=
  t.PORTH &&& 0x87 = s.PORTH &&& 0x87 ∧ t.PORTE &&& 0xF7 = s.PORTE &&& 0xF7 ∧
    t.PORTG &&& 0xDF = s.PORTG &&& 0xDF

/-! ## Bit-level facts -/

theorem testBit_mod_256 (x i : Nat) :
    (x % 256).testBit i = (decide (i < 8) && x.testBit i) := by
  have h := Nat.testBit_mod_two_pow x 8 i
  simpa using h

theorem testBit_64 :
    Nat.testBit 64 0 = false ∧ Nat.testBit 64 1 = false ∧
    Nat.testBit 64 2 = false ∧ Nat.testBit 64 3 = false ∧
    Nat.testBit 64 4 = false ∧ Nat.testBit 64 5 = false ∧
    Nat.testBit 64 6 = true ∧ Nat.testBit 64 7 = false := by
  decide

theorem testBit_191 :
    Nat.testBit 191 0 = true ∧ Nat.testBit 191 1 = true ∧
    Nat.testBit 191 2 = true ∧ Nat.testBit 191 3 = true ∧
    Nat.testBit 191 4 = true ∧ Nat.testBit 191 5 = true ∧
    Nat.testBit 191 6 = false ∧ Nat.testBit 191 7 = true := by
  decide

theorem testBit_231 :
    Nat.testBit 231 0 = true ∧ Nat.testBit 231 1 = true ∧
    Nat.testBit 231 2 = true ∧ Nat.testBit 231 3 = false ∧
    Nat.testBit 231 4 = false ∧ Nat.testBit 231 5 = true ∧
    Nat.testBit 231 6 = true ∧ Nat.testBit 231 7 = true := by
  decide

theorem testBit_24 :
    Nat.testBit 24 0 = false ∧ Nat.testBit 24 1 = false ∧
    Nat.testBit 24 2 = false ∧ Nat.testBit 24 3 = true ∧
    Nat.testBit 24 4 = true ∧ Nat.testBit 24 5 = false ∧
    Nat.testBit 24 6 = false ∧ Nat.testBit 24 7 = false := by
  decide

theorem testBit_247 :
    Nat.testBit 247 0 = true ∧ Nat.testBit 247 1 = true ∧
    Nat.testBit 247 2 = true ∧ Nat.testBit 247 3 = false ∧
    Nat.testBit 247 4 = true ∧ Nat.testBit 247 5 = true ∧
    Nat.testBit 247 6 = true ∧ Nat.testBit 247 7 = true := by
  decide

theorem testBit_8 :
    Nat.testBit 8 0 = false ∧ Nat.testBit 8 1 = false ∧
    Nat.testBit 8 2 = false ∧ Nat.testBit 8 3 = true ∧
    Nat.testBit 8 4 = false ∧ Nat.testBit 8 5 = false ∧
    Nat.testBit 8 6 = false ∧ Nat.testBit 8 7 = false := by
  decide

theorem testBit_223 :
    Nat.testBit 223 0 = true ∧ Nat.testBit 223 1 = true ∧
    Nat.testBit 223 2 = true ∧ Nat.testBit 223 3 = true ∧
    Nat.testBit 223 4 = true ∧ Nat.testBit 223 5 = false ∧
    Nat.testBit 223 6 = true ∧ Nat.testBit 223 7 = true := by
  decide

theorem testBit_32 :
    Nat.testBit 32 0 = false ∧ Nat.testBit 32 1 = false ∧
    Nat.testBit 32 2 = false ∧ Nat.testBit 32 3 = false ∧
    Nat.testBit 32 4 = false ∧ Nat.testBit 32 5 = true ∧
    Nat.testBit 32 6 = false ∧ Nat.testBit 32 7 = false := by
  decide

theorem testBit_135 :
    Nat.testBit 135 0 = true ∧ Nat.testBit 135 1 = true ∧
    Nat.testBit 135 2 = true ∧ Nat.testBit 135 3 = false ∧
    Nat.testBit 135 4 = false ∧ Nat.testBit 135 5 = false ∧
    Nat.testBit 135 6 = false ∧ Nat.testBit 135 7 = true := by
  decide

theorem eq_of_testBit_lt8 {a b : Nat} (ha : a < 256) (hb : b < 256)
    (h : ∀ i < 8, a.testBit i = b.testBit i) : a = b := by
  apply Nat.eq_of_testBit_eq
  intro i
  by_cases hi : i < 8
  · exact h i hi
  · have h8 : 256 ≤ 2 ^ i := by
      calc 256 = 2 ^ 8 := by norm_num
        _ ≤ 2 ^ i := Nat.pow_le_pow_right (by norm_num) (by omega)
    rw [Nat.testBit_lt_two_pow (lt_of_lt_of_le ha h8),
      Nat.testBit_lt_two_pow (lt_of_lt_of_le hb h8)]

theorem toNat_testBit (x k : Nat) : (x.testBit k).toNat = x / 2 ^ k % 2 := by
  rw [Nat.testBit_to_div_mod]
  rcases Nat.mod_two_eq_zero_or_one (x / 2 ^ k) with h | h <;> simp [h]

theorem nibble_hi (B : Nat) :
    8 * (B.testBit 7).toNat + 4 * (B.testBit 6).toNat + 2 * (B.testBit 5).toNat
      + (B.testBit 4).toNat = B / 16 % 16 := by
  simp only [toNat_testBit]
  omega

theorem nibble_lo (B : Nat) :
    8 * (B.testBit 3).toNat + 4 * (B.testBit 2).toNat + 2 * (B.testBit 1).toNat
      + (B.testBit 0).toNat = B % 16 := by
  simp only [toNat_testBit]
  omega

/-! ## The busy-wait at the three durations the driver uses -/

theorem wait_ns_450 (sc : Bool) (s : State) :
    wait_ns sc 450 s = some s.NOP.NOP.NOP.NOP.NOP.NOP.NOP.NOP := by
  cases sc <;> rfl

theorem wait_ns_50 (sc : Bool) (s : State) : wait_ns sc 50 s = some s.NOP := by
  cases sc <;> rfl

theorem wait_ns_40 (sc : Bool) (s : State) : wait_ns sc 40 s = some s.NOP := by
  cases sc <;> rfl

/-! ## Observer bookkeeping -/

theorem Watch.refl (s : State) (b : Bus) : Watch s s b b :=
  ⟨[], by simp, rfl⟩

theorem Watch.trans {s t u : State} {b c d : Bus} (h1 : Watch s t b c) (h2 : Watch t u c d) :
    Watch s u b d := by
  obtain ⟨e1, ht, hc⟩ := h1
  obtain ⟨e2, hu, hd⟩ := h2
  refine ⟨e1 ++ e2, ?_, ?_⟩
  · rw [hu, ht, List.append_assoc]
  · rw [List.foldl_append, hc, hd]

theorem Watch.observe {s t : State} {c : Bus} (h : Watch s t (Bus.init s) c) :
    observe s t = c := by
  obtain ⟨evs, ht, hc⟩ := h
  simp [LCD162.observe, emitted, ht, hc]

theorem Watch.event_us (s : State) (n : Nat) (b : Bus) :
    Watch s (s.delay_us n) b (b.step (Ev.delay_us n)) :=
  ⟨[Ev.delay_us n], rfl, rfl⟩

theorem Watch.event_ms (s : State) (n : Nat) (b : Bus) :
    Watch s (s.delay_ms n) b (b.step (Ev.delay_ms n)) :=
  ⟨[Ev.delay_ms n], rfl, rfl⟩

theorem decode_wire_append (l1 l2 : Latch) (h : l1.rs = l2.rs) (g1 g2 : Nat) :
    ∀ ls : List Latch,
      (decode (ls ++ [l1, l2]) g2).map (List.map Transfer.wire)
        = ((decode ls g1).map (List.map Transfer.wire)).map
            (fun ws => ws ++ [(l1.rs, 16 * l1.nib + l2.nib)])
  | [] => by simp [decode, h, Transfer.wire]
  | [x] => by simp [decode]
  | hi :: lo :: rest => by
    have ih := decode_wire_append l1 l2 h g1 g2 rest
    by_cases hr : hi.rs = lo.rs
    · simp only [List.cons_append, decode, hr, if_true, Option.map_map] at ih ⊢
      cases h1 : decode rest g1 <;> cases h2 : decode (rest ++ [l1, l2]) g2 <;>
        simp [h1, h2, Transfer.wire] at ih ⊢
      exact ih
    · simp [decode, hr]

theorem decode_wire_last (g1 g2 : Nat) :
    ∀ ls : List Latch,
      (decode ls g2).map (List.map Transfer.wire) = (decode ls g1).map (List.map Transfer.wire)
  | [] => by simp [decode]
  | [x] => by simp [decode]
  | hi :: lo :: rest => by
    have ih := decode_wire_last g1 g2 rest
    by_cases hr : hi.rs = lo.rs
    · simp only [decode, hr, if_true, Option.map_map] at ih ⊢
      cases h1 : decode rest g1 <;> cases h2 : decode rest g2 <;>
        simp [h1, h2, Transfer.wire] at ih ⊢
      exact ih
    · simp [decode, hr]

theorem sent_eq_wires (s t : State) : sent s t = (observe s t).wires := rfl

theorem wires_init (s : State) : (Bus.init s).wires = some [] := rfl

/-! ## The two byte transfers, as seen by the observer -/

theorem sendInstruction_watch (sc : Bool) (B : Nat) (s : State) (b : Bus) (hb : Tracks b s) :
    ∃ t c, sendInstruction sc B s = some t ∧ Watch s t b c ∧ Tracks c t ∧
      c.enable = false ∧ c.gap = 1 ∧
      ∃ l1, c.done = b.done ++ [l1, ⟨false, B % 16, 1, 8, true⟩] ∧ l1.rs = false ∧
        l1.nib = B / 16 % 16 ∧
        (b.enable = false → l1 = ⟨false, B / 16 % 16, b.gap + 1, 8, true⟩) := by
  obtain ⟨bH, bE, bG, gap, before, high, steady, done⟩ := b
  obtain ⟨hH, hE, hG⟩ := hb
  simp only at hH hE hG
  subst hH hE hG
  cases hen : s.PORTH.testBit 6 <;>
  simp [sendInstruction, sendData, setPins, pulse_E, set4DataPins, wait_ns_450, wait_ns_50,
    wait_ns_40, State.setPORTH, State.setPORTE, State.setPORTG, State.NOP, State.delay_us,
    Watch, Tracks, Bus.step, Bus.write, Bus.enable, Bus.rs, Bus.nibble, Ev.cycles,
    testBit_mod_256, Nat.testBit_lor, Nat.testBit_land, Nat.testBit_shiftLeft,
    Nat.testBit_shiftRight, testBit_64, testBit_191, testBit_231, testBit_24, testBit_247,
    testBit_8, testBit_223, testBit_32, -Nat.testBit_zero, nibble_hi, nibble_lo, hen]

theorem sendData_watch (sc : Bool) (B : Nat) (s : State) (b : Bus) (hb : Tracks b s) :
    ∃ t c, sendData sc B s = some t ∧ Watch s t b c ∧ Tracks c t ∧
      c.enable = false ∧ c.gap = 593 ∧
      ∃ l1, c.done = b.done ++ [l1, ⟨true, B % 16, 1, 8, true⟩] ∧ l1.rs = true ∧
        l1.nib = B / 16 % 16 ∧
        (b.enable = false → l1 = ⟨true, B / 16 % 16, b.gap + 1, 8, true⟩) := by
  obtain ⟨bH, bE, bG, gap, before, high, steady, done⟩ := b
  obtain ⟨hH, hE, hG⟩ := hb
  simp only at hH hE hG
  subst hH hE hG
  cases hen : s.PORTH.testBit 6 <;>
  simp [sendInstruction, sendData, setPins, pulse_E, set4DataPins, wait_ns_450, wait_ns_50,
    wait_ns_40, State.setPORTH, State.setPORTE, State.setPORTG, State.NOP, State.delay_us,
    Watch, Tracks, Bus.step, Bus.write, Bus.enable, Bus.rs, Bus.nibble, Ev.cycles,
    testBit_mod_256, Nat.testBit_lor, Nat.testBit_land, Nat.testBit_shiftLeft,
    Nat.testBit_shiftRight, testBit_64, testBit_191, testBit_231, testBit_24, testBit_247,
    testBit_8, testBit_223, testBit_32, -Nat.testBit_zero, nibble_hi, nibble_lo, hen]

theorem pulse_E_watch (sc : Bool) (s : State) (b : Bus) (hb : Tracks b s) :
    ∃ t c, pulse_E sc s = some t ∧ Watch s t b c ∧ Tracks c t ∧
      c.enable = false ∧ c.gap = 1 ∧
      ∃ l, c.done = b.done ++ [l] ∧ l.rs = b.rs ∧ l.nib = b.nibble ∧
        (b.enable = false → l = ⟨b.rs, b.nibble, b.gap, 8, true⟩) := by
  obtain ⟨bH, bE, bG, gap, before, high, steady, done⟩ := b
  obtain ⟨hH, hE, hG⟩ := hb
  simp only at hH hE hG
  subst hH hE hG
  cases hen : s.PORTH.testBit 6 <;>
  simp [sendInstruction, sendData, setPins, pulse_E, set4DataPins, wait_ns_450, wait_ns_50,
    wait_ns_40, State.setPORTH, State.setPORTE, State.setPORTG, State.NOP, State.delay_us,
    Watch, Tracks, Bus.step, Bus.write, Bus.enable, Bus.rs, Bus.nibble, Ev.cycles,
    testBit_mod_256, Nat.testBit_lor, Nat.testBit_land, Nat.testBit_shiftLeft,
    Nat.testBit_shiftRight, testBit_64, testBit_191, testBit_231, testBit_24, testBit_247,
    testBit_8, testBit_223, testBit_32, -Nat.testBit_zero, nibble_hi, nibble_lo, hen]

theorem wires_of_done {b c : Bus} {l1 l2 : Latch} (h : c.done = b.done ++ [l1, l2])
    (hrs : l1.rs = l2.rs) :
    c.wires = b.wires.map (fun ws => ws ++ [(l1.rs, 16 * l1.nib + l2.nib)]) := by
  unfold Bus.wires
  rw [h]
  exact decode_wire_append l1 l2 hrs b.gap c.gap b.done

theorem step_wait_low (b : Bus) (e : Ev) (hw : b.write e = b) (hen : b.enable = false) :
    b.step e = { b with gap := b.gap + e.cycles } := by
  simp [Bus.step, hw, hen]

theorem wires_gap (b : Bus) (g : Nat) : ({ b with gap := g } : Bus).wires = b.wires :=
  decode_wire_last b.gap g b.done

theorem sendInstruction_sent (sc : Bool) (B : Nat) (s : State) (b : Bus) (hb : Tracks b s) :
    ∃ t c, sendInstruction sc B s = some t ∧ Watch s t b c ∧ Tracks c t ∧
      c.enable = false ∧ c.gap = 1 ∧
      c.wires = b.wires.map (fun ws => ws ++ [(false, B % 256)]) := by
  obtain ⟨t, c, ht, hw, htr, hen, hg, l1, hd, hrs, hnib, -⟩ := sendInstruction_watch sc B s b hb
  refine ⟨t, c, ht, hw, htr, hen, hg, ?_⟩
  rw [wires_of_done hd hrs, hrs, hnib]
  have : 16 * (B / 16 % 16) + B % 16 = B % 256 := by omega
  simp [this]

theorem sendData_sent (sc : Bool) (B : Nat) (s : State) (b : Bus) (hb : Tracks b s) :
    ∃ t c, sendData sc B s = some t ∧ Watch s t b c ∧ Tracks c t ∧
      c.enable = false ∧ c.gap = 593 ∧
      c.wires = b.wires.map (fun ws => ws ++ [(true, B % 256)]) := by
  obtain ⟨t, c, ht, hw, htr, hen, hg, l1, hd, hrs, hnib, -⟩ := sendData_watch sc B s b hb
  refine ⟨t, c, ht, hw, htr, hen, hg, ?_⟩
  rw [wires_of_done hd hrs, hrs, hnib]
  have : 16 * (B / 16 % 16) + B % 16 = B % 256 := by omega
  simp [this]

/-- After a transfer, a `_delay_us`: the observer only sees the gap grow. -/
theorem delay_us_after {s t : State} {b c : Bus} (n : Nat) (hw : Watch s t b c)
    (htr : Tracks c t) (hen : c.enable = false) :
    Watch s (t.delay_us n) b { c with gap := c.gap + 16 * n } ∧
      Tracks { c with gap := c.gap + 16 * n } (t.delay_us n) := by
  refine ⟨hw.trans ?_, htr⟩
  have h := Watch.event_us t n c
  rwa [step_wait_low c (Ev.delay_us n) rfl hen] at h

theorem decode_pair (l1 l2 : Latch) (g : Nat) (h : l1.rs = l2.rs) :
    decode [l1, l2] g = some [⟨l1.rs, 16 * l1.nib + l2.nib, g⟩] := by
  simp [decode, h]

/-- One instruction byte sent from an arbitrary state, alone or followed by a
`_delay_us(n)`: what the controller receives. -/
theorem sendInstruction_received (sc : Bool) (B : Nat) (s : State) (n : Nat) :
    ∃ t, sendInstruction sc B s = some t ∧
      received s t = some [⟨false, B % 256, 1⟩] ∧
      received s (t.delay_us n) = some [⟨false, B % 256, 1 + 16 * n⟩] := by
  obtain ⟨t, c, ht, hw, htr, hen, hg, l1, hd, hrs, hnib, -⟩ :=
    sendInstruction_watch sc B s (Bus.init s) ⟨rfl, rfl, rfl⟩
  have hd2 : c.done = [l1, ⟨false, B % 16, 1, 8, true⟩] := by simpa [Bus.init] using hd
  have hb : 16 * (B / 16 % 16) + B % 16 = B % 256 := by omega
  refine ⟨t, ht, ?_, ?_⟩
  · unfold received
    rw [hw.observe, hd2, hg, decode_pair _ _ _ hrs, hrs, hnib, hb]
  · unfold received
    rw [(delay_us_after n hw htr hen).1.observe]
    simp only []
    rw [hd2, hg, decode_pair _ _ _ hrs, hrs, hnib, hb]

theorem lor_128 : ∀ y < 2, ∀ r < 16, 128 ||| (y * 64 + r) = 128 + y * 64 + r := by
  decide

/-- One instruction byte sent from an arbitrary state: the bytes received. -/
theorem sendInstruction_alone (sc : Bool) (B : Nat) (s : State) :
    ∃ t, sendInstruction sc B s = some t ∧ received s t = some [⟨false, B % 256, 1⟩] ∧
      sent s t = some [(false, B % 256)] := by
  obtain ⟨t, ht, hr, -⟩ := sendInstruction_received sc B s 0
  exact ⟨t, ht, hr, by simp [sent, hr, Transfer.wire]⟩

/-! ## Registers after an instruction -/

theorem sendInstruction_regs (sc : Bool) (B : Nat) (s t : State)
    (h : sendInstruction sc B s = some t) :
    t.PORTH = ((s.PORTH &&& 0x87) ||| ((B <<< 1) &&& 0x18)) % 256 ∧
    t.PORTE = ((s.PORTE &&& 0xF7) ||| ((B <<< 2) &&& 0x08)) % 256 ∧
    t.PORTG = ((s.PORTG &&& 0xDF) ||| ((B <<< 5) &&& 0x20)) % 256 ∧
    t.DDRH = s.DDRH ∧ t.DDRE = s.DDRE ∧ t.DDRG = s.DDRG := by
  simp only [sendInstruction, setPins, pulse_E, set4DataPins, wait_ns_450, wait_ns_50,
    wait_ns_40, State.setPORTH, State.setPORTE, State.setPORTG, State.NOP,
    Option.bind_eq_bind, Option.some_bind, Option.some.injEq] at h
  subst h
  refine ⟨?_, ?_, ?_, rfl, rfl, rfl⟩ <;>
  · apply eq_of_testBit_lt8 (Nat.mod_lt _ (by decide)) (Nat.mod_lt _ (by decide))
    intro i hi
    interval_cases i <;>
    simp [testBit_mod_256, Nat.testBit_lor, Nat.testBit_land, Nat.testBit_shiftLeft,
      Nat.testBit_shiftRight, testBit_64, testBit_191, testBit_231, testBit_24, testBit_247,
      testBit_8, testBit_223, testBit_32, testBit_135, -Nat.testBit_zero]

theorem clear_regs_idem (H E G : Nat) :
    (((((H &&& 0x87) ||| ((1 <<< 1) &&& 0x18)) % 256) &&& 0x87) ||| ((1 <<< 1) &&& 0x18)) % 256
      = ((H &&& 0x87) ||| ((1 <<< 1) &&& 0x18)) % 256 ∧
    (((((E &&& 0xF7) ||| ((1 <<< 2) &&& 0x08)) % 256) &&& 0xF7) ||| ((1 <<< 2) &&& 0x08)) % 256
      = ((E &&& 0xF7) ||| ((1 <<< 2) &&& 0x08)) % 256 ∧
    (((((G &&& 0xDF) ||| ((1 <<< 5) &&& 0x20)) % 256) &&& 0xDF) ||| ((1 <<< 5) &&& 0x20)) % 256
      = ((G &&& 0xDF) ||| ((1 <<< 5) &&& 0x20)) % 256 := by
  refine ⟨?_, ?_, ?_⟩ <;>
  · apply eq_of_testBit_lt8 (Nat.mod_lt _ (by decide)) (Nat.mod_lt _ (by decide))
    intro i hi
    interval_cases i <;>
    simp [testBit_mod_256, Nat.testBit_lor, Nat.testBit_land, Nat.testBit_shiftLeft,
      testBit_24, testBit_247, testBit_8, testBit_223, testBit_32, testBit_135,
      -Nat.testBit_zero]

/-! ## Chaining operations -/

theorem bind_rule {x : Option State} {a : State} (h : x = some a)
    {f : State → Option State} {Q : State → Prop} (hq : ∃ u, f a = some u ∧ Q u) :
    ∃ u, x.bind f = some u ∧ Q u := by
  subst h
  simpa using hq

theorem LCDClear_sent (sc : Bool) (s : State) (b : Bus) (hb : Tracks b s) :
    ∃ t c, LCDClear sc s = some t ∧ Watch s t b c ∧ Tracks c t ∧
      c.enable = false ∧ c.gap = 24321 ∧
      c.wires = b.wires.map (fun ws => ws ++ [(false, 1)]) ∧
      t.PORTH = ((s.PORTH &&& 0x87) ||| ((1 <<< 1) &&& 0x18)) % 256 ∧
      t.PORTE = ((s.PORTE &&& 0xF7) ||| ((1 <<< 2) &&& 0x08)) % 256 ∧
      t.PORTG = ((s.PORTG &&& 0xDF) ||| ((1 <<< 5) &&& 0x20)) % 256 := by
  obtain ⟨t, c, ht, hw, htr, hen, hg, hwires⟩ := sendInstruction_sent sc 1 s b hb
  obtain ⟨hw2, htr2⟩ := delay_us_after 1520 hw htr hen
  obtain ⟨hH, hE, hG, -⟩ := sendInstruction_regs sc 1 s t ht
  refine ⟨t.delay_us 1520, _, ?_, hw2, htr2, hen, ?_, ?_, hH, hE, hG⟩
  · simp [LCDClear, ht]
  · simp [hg]
  · rw [wires_gap, hwires]

/-- After an operation that left E low, a `_delay_ms`: the observer only sees the gap grow. -/
theorem delay_ms_after {s t : State} {b c : Bus} (n : Nat) (hw : Watch s t b c)
    (htr : Tracks c t) (hen : c.enable = false) :
    Watch s (t.delay_ms n) b { c with gap := c.gap + 16000 * n } ∧
      Tracks { c with gap := c.gap + 16000 * n } (t.delay_ms n) := by
  refine ⟨hw.trans ?_, htr⟩
  have h := Watch.event_ms t n c
  rwa [step_wait_low c (Ev.delay_ms n) rfl hen] at h

/-- With E low, a write to PORTG only changes the observer's copy of PORTG. -/
theorem setPORTG_after {s t : State} {b c : Bus} (v : Nat) (hw : Watch s t b c)
    (htr : Tracks c t) (hen : c.enable = false) :
    Watch s (t.setPORTG v) b { c with G := v % 256 } ∧
      Tracks { c with G := v % 256 } (t.setPORTG v) ∧
      ({ c with G := v % 256 } : Bus).enable = false := by
  refine ⟨hw.trans ⟨[Ev.wPORTG (v % 256)], rfl, ?_⟩, ?_, hen⟩
  · have h2 : ({ c with G := v % 256 } : Bus).enable = false := hen
    simp [Bus.step, Bus.write, hen, h2, Ev.cycles]
  · obtain ⟨h1, h2, -⟩ := htr
    exact ⟨h1, h2, rfl⟩

/-- A pulse made while E is low, continuing an observation. -/
theorem pulse_after (sc : Bool) {s t : State} {b c : Bus} (hw : Watch s t b c)
    (htr : Tracks c t) (hen : c.enable = false) :
    ∃ u d, pulse_E sc t = some u ∧ Watch s u b d ∧ Tracks d u ∧ d.enable = false ∧
      d.gap = 1 ∧ d.done = c.done ++ [⟨c.rs, c.nibble, c.gap, 8, true⟩] := by
  obtain ⟨u, d, hu, hw2, htr2, hen2, hg2, l, hd, -, -, hl⟩ := pulse_E_watch sc t c htr
  exact ⟨u, d, hu, hw.trans hw2, htr2, hen2, hg2, by rw [hd, hl hen]⟩

/-- An instruction sent while E is low, continuing an observation. -/
theorem instr_after (sc : Bool) (B : Nat) {s t : State} {b c : Bus} (hw : Watch s t b c)
    (htr : Tracks c t) (hen : c.enable = false) :
    ∃ u d, sendInstruction sc B t = some u ∧ Watch s u b d ∧ Tracks d u ∧ d.enable = false ∧
      d.gap = 1 ∧
      d.done = c.done
        ++ [⟨false, B / 16 % 16, c.gap + 1, 8, true⟩, ⟨false, B % 16, 1, 8, true⟩] := by
  obtain ⟨u, d, hu, hw2, htr2, hen2, hg2, l, hd, -, -, hl⟩ := sendInstruction_watch sc B t c htr
  exact ⟨u, d, hu, hw.trans hw2, htr2, hen2, hg2, by rw [hd, hl hen]⟩

/-- The part of `LCDInit` before its first pulse: direction registers, the 50 ms wait and
the two writes that raise DB4 and DB5.  No pulse is completed. -/
theorem LCDInit_prelude (s : State) :
    ∃ c, Watch s ((((((s.setDDRH (s.DDRH ||| 0b01111000)).setDDRE (s.DDRE ||| 0b00001000)).setDDRG
          (s.DDRG ||| 0b00100000)).delay_ms 50).setPORTG (s.PORTG ||| 0b00100000)).setPORTE
          (s.PORTE ||| 0b00001000)) (Bus.init s) c ∧
      Tracks c ((((((s.setDDRH (s.DDRH ||| 0b01111000)).setDDRE (s.DDRE ||| 0b00001000)).setDDRG
          (s.DDRG ||| 0b00100000)).delay_ms 50).setPORTG (s.PORTG ||| 0b00100000)).setPORTE
          (s.PORTE ||| 0b00001000)) ∧
      c.done = [] ∧
      (s.PORTH.testBit 6 = false → c.enable = false ∧ c.gap = 16000 * 50) := by
  refine ⟨_, ⟨[Ev.wDDRH ((s.DDRH ||| 0b01111000) % 256), Ev.wDDRE ((s.DDRE ||| 0b00001000) % 256),
    Ev.wDDRG ((s.DDRG ||| 0b00100000) % 256), Ev.delay_ms 50,
    Ev.wPORTG ((s.PORTG ||| 0b00100000) % 256), Ev.wPORTE ((s.PORTE ||| 0b00001000) % 256)],
    by simp [State.setDDRH, State.setDDRE, State.setDDRG, State.delay_ms, State.setPORTG,
      State.setPORTE], rfl⟩, ?_, ?_, ?_⟩
  · cases hen : s.PORTH.testBit 6 <;>
    simp [Tracks, Bus.init, Bus.step, Bus.write, Bus.enable, hen, State.setDDRH, State.setDDRE,
      State.setDDRG, State.delay_ms, State.setPORTG, State.setPORTE]
  · cases hen : s.PORTH.testBit 6 <;>
    simp [Bus.init, Bus.step, Bus.write, Bus.enable, hen]
  · intro hen
    simp [Bus.init, Bus.step, Bus.write, Bus.enable, hen, Ev.cycles]

/-! ## Loops of data bytes -/

/-- A data byte, continuing an observation. -/
theorem data_after (sc : Bool) (B : Nat) {s t : State} {b c : Bus} (hw : Watch s t b c)
    (htr : Tracks c t) :
    ∃ u d, sendData sc B t = some u ∧ Watch s u b d ∧ Tracks d u ∧
      d.wires = c.wires.map (fun ws => ws ++ [(true, B % 256)]) := by
  obtain ⟨u, d, hu, hw2, htr2, -, -, hwi⟩ := sendData_sent sc B t c htr
  exact ⟨u, d, hu, hw.trans hw2, htr2, hwi⟩

/-- `LCDGotoXY(0, 1)`, continuing an observation. -/
theorem gotoXY_0_1_after (sc : Bool) {s t : State} {b c : Bus} (hw : Watch s t b c)
    (htr : Tracks c t) :
    ∃ u d, LCDGotoXY sc 0 1 t = some u ∧ Watch s u b d ∧ Tracks d u ∧
      d.wires = c.wires.map (fun ws => ws ++ [(false, 0xC0)]) := by
  obtain ⟨u, d, hu, hw2, htr2, hen2, -, hwi⟩ := sendInstruction_sent sc 0xC0 t c htr
  obtain ⟨hw3, htr3⟩ := delay_us_after 37 hw2 htr2 hen2
  refine ⟨u.delay_us 37, _, ?_, hw.trans hw3, htr3, ?_⟩
  · have h : LCDGotoXY sc 0 1 t
        = (sendInstruction sc 0xC0 t).bind (fun s => some (s.delay_us 37)) := rfl
    rw [h, hu]
    rfl
  · rw [wires_gap, hwi]

theorem LCDLoadUDC_loop_sent (sc : Bool) (p : List Nat) (hp : p.length = 8) :
    ∀ (k i fuel : Nat) (s t : State) (b c : Bus), i + k = 8 → k < fuel →
      Watch s t b c → Tracks c t →
      ∃ u d, LCDLoadUDC_loop sc p fuel i t = some u ∧ Watch s u b d ∧ Tracks d u ∧
        d.wires = c.wires.map (fun ws => ws ++ (p.drop i).map (fun x => (true, x % 256))) := by
  intro k
  induction k with
  | zero =>
    intro i fuel s t b c hik hf hw htr
    obtain ⟨f, rfl⟩ : ∃ f, fuel = f + 1 := ⟨fuel - 1, by omega⟩
    have hi : i = 8 := by omega
    subst hi
    refine ⟨t, c, by simp [LCDLoadUDC_loop], hw, htr, ?_⟩
    rw [List.drop_of_length_le (by omega)]
    simp
  | succ k ih =>
    intro i fuel s t b c hik hf hw htr
    obtain ⟨f, rfl⟩ : ∃ f, fuel = f + 1 := ⟨fuel - 1, by omega⟩
    have hi : i < 8 := by omega
    have hlt : i < p.length := by omega
    obtain ⟨u1, d1, hu1, hw1, htr1, hwi1⟩ := data_after sc (p[i] % 256) hw htr
    obtain ⟨u, d, hu, hw2, htr2, hwi2⟩ :=
      ih (i + 1) f s u1 b d1 (by omega) (by omega) hw1 htr1
    have hi1 : (i + 1) % 256 = i + 1 := by omega
    have hdrop : (p.drop i).map (fun x => (true, x % 256))
        = (true, p[i] % 256) :: (p.drop (i + 1)).map (fun x => (true, x % 256)) := by
      rw [List.drop_eq_getElem_cons hlt]
      rfl
    refine ⟨u, d, ?_, hw2, htr2, ?_⟩
    · simp [LCDLoadUDC_loop, hi, List.getElem?_eq_getElem hlt, hu1, hi1, hu]
    · rw [hwi2, hwi1, hdrop, Nat.mod_mod, Option.map_map]
      congr 1
      funext ws
      simp

theorem getElem?_length_append (pre : List Nat) (x : Nat) (tl : List Nat) :
    (pre ++ x :: tl)[pre.length]? = some x := by
  rw [List.getElem?_append_right (le_refl _)]
  simp

theorem LCDDispString_loop_stop (sc : Bool) (str : List Nat) (f i flag : Nat) (s : State)
    (h : str[i]? = some 0) : LCDDispString_loop sc str (f + 1) i flag s = some s := by
  simp [LCDDispString_loop, h]

theorem LCDDispString_loop_step (sc : Bool) (str : List Nat) (f i flag ch : Nat) (s : State)
    (h : str[i]? = some ch) (hch : ch ≠ 0) :
    LCDDispString_loop sc str (f + 1) i flag s
      = (LCDDispChar sc ch s).bind fun s =>
          if (i + 1) % 256 > 15 ∧ flag = 1 then
            (LCDGotoXY sc 0 1 s).bind fun s =>
              LCDDispString_loop sc str f ((i + 1) % 256) 0 s
          else
            LCDDispString_loop sc str f ((i + 1) % 256) flag s := by
  simp [LCDDispString_loop, h, hch]

theorem LCDDispString_loop_sent (sc : Bool) (rest : List Nat) :
    ∀ (cs pre : List Nat) (fuel : Nat) (s t : State) (b c : Bus),
      (∀ x ∈ cs, x ≠ 0 ∧ x < 256) → pre.length + cs.length ≤ 255 → cs.length < fuel →
      Watch s t b c → Tracks c t →
      ∃ u d, LCDDispString_loop sc (pre ++ cs ++ 0 :: rest) fuel pre.length
          (if pre.length ≤ 15 then 1 else 0) t = some u ∧
        Watch s u b d ∧ Tracks d u ∧
        d.wires = c.wires.map (fun ws => ws ++ wiresFrom pre.length cs) := by
  intro cs
  induction cs with
  | nil =>
    intro pre fuel s t b c _ _ hf hw htr
    obtain ⟨f, rfl⟩ : ∃ f, fuel = f + 1 := ⟨fuel - 1, by omega⟩
    have hget : (pre ++ [] ++ 0 :: rest)[pre.length]? = some 0 := by
      rw [List.append_nil]
      exact getElem?_length_append pre 0 rest
    refine ⟨t, c, LCDDispString_loop_stop sc _ f _ _ t hget, hw, htr, ?_⟩
    cases c.wires <;> simp [wiresFrom]
  | cons x cs ih =>
    intro pre fuel s t b c hc hn hf hw htr
    obtain ⟨f, rfl⟩ : ∃ f, fuel = f + 1 := ⟨fuel - 1, by omega⟩
    obtain ⟨hx0, hx⟩ := hc x (List.mem_cons_self _ _)
    have hc2 : ∀ y ∈ cs, y ≠ 0 ∧ y < 256 := fun y hy => hc y (List.mem_cons_of_mem _ hy)
    simp only [List.length_cons] at hn hf
    have hi1 : (pre.length + 1) % 256 = pre.length + 1 := by omega
    have hstr : pre ++ x :: cs ++ 0 :: rest = (pre ++ [x]) ++ cs ++ 0 :: rest := by simp
    have hlen : (pre ++ [x]).length = pre.length + 1 := by simp
    have hget : (pre ++ x :: cs ++ 0 :: rest)[pre.length]? = some x := by
      rw [List.append_assoc, List.cons_append]
      exact getElem?_length_append pre x (cs ++ 0 :: rest)
    obtain ⟨u1, d1, hu1, hw1, htr1, hwi1⟩ := data_after sc (x % 256) hw htr
    rw [Nat.mod_mod, Nat.mod_eq_of_lt hx] at hwi1
    have hu1b : LCDDispChar sc x t = some u1 := hu1
    rw [LCDDispString_loop_step sc _ f _ _ x t hget hx0, hu1b, Option.some_bind, hi1]
    by_cases h15 : pre.length = 15
    · obtain ⟨u2, d2, hu2, hw2, htr2, hwi2⟩ := gotoXY_0_1_after sc hw1 htr1
      obtain ⟨u, d, hu, hw3, htr3, hwi3⟩ :=
        ih (pre ++ [x]) f s u2 b d2 hc2 (by rw [hlen]; omega) (by omega) hw2 htr2
      rw [hlen, ← hstr] at hu
      rw [hlen] at hwi3
      have hcond : pre.length + 1 > 15 ∧ (if pre.length ≤ 15 then 1 else 0) = 1 := by
        simp [h15]
      have hflag : (if pre.length + 1 ≤ 15 then 1 else 0) = 0 := by simp [h15]
      rw [hflag] at hu
      refine ⟨u, d, ?_, hw3, htr3, ?_⟩
      · rw [if_pos hcond, hu2, Option.some_bind, hu]
      · rw [hwi3, hwi2, hwi1]
        cases c.wires <;> simp [wiresFrom, h15]
    · obtain ⟨u, d, hu, hw3, htr3, hwi3⟩ :=
        ih (pre ++ [x]) f s u1 b d1 hc2 (by rw [hlen]; omega) (by omega) hw1 htr1
      rw [hlen, ← hstr] at hu
      rw [hlen] at hwi3
      have hflag : (if pre.length + 1 ≤ 15 then 1 else 0) = (if pre.length ≤ 15 then 1 else 0) := by
        by_cases h : pre.length ≤ 15
        · have : pre.length + 1 ≤ 15 := by omega
          simp [h, this]
        · have : ¬ pre.length + 1 ≤ 15 := by omega
          simp [h, this]
      rw [hflag] at hu
      have hcond : ¬ (pre.length + 1 > 15 ∧ (if pre.length ≤ 15 then 1 else 0) = 1) := by
        by_cases h : pre.length ≤ 15
        · have : ¬ pre.length + 1 > 15 := by omega
          simp [this]
        · simp [h]
      refine ⟨u, d, ?_, hw3, htr3, ?_⟩
      · rw [if_neg hcond, hu]
      · rw [hwi3, hwi1]
        cases c.wires <;> simp [wiresFrom, h15]

theorem wiresFrom_high : ∀ (cs : List Nat) (i : Nat), 15 < i →
    wiresFrom i cs = cs.map (fun x => (true, x))
  | [], _, _ => rfl
  | x :: cs, i, h => by
    have h1 : i ≠ 15 := by omega
    simp [wiresFrom, h1, wiresFrom_high cs (i + 1) (by omega)]

theorem wiresFrom_low : ∀ (cs : List Nat) (i : Nat), i ≤ 15 →
    wiresFrom i cs = (cs.take (16 - i)).map (fun x => (true, x))
      ++ (if 16 - i ≤ cs.length then [(false, 0xC0)] else [])
      ++ (cs.drop (16 - i)).map (fun x => (true, x))
  | [], i, h => by
    have : ¬ 16 - i ≤ 0 := by omega
    simp [wiresFrom, this]
  | x :: cs, i, h => by
    by_cases h15 : i = 15
    · subst h15
      simp [wiresFrom, wiresFrom_high cs 16 (by decide)]
    · have e : 16 - i = (16 - (i + 1)) + 1 := by omega
      rw [e]
      simp [wiresFrom, h15, wiresFrom_low cs (i + 1) (by omega)]

/-! ## Decimal conversion -/

theorem digitChar_toNat (d : Nat) (h : d < 10) : (Nat.digitChar d).toNat = 48 + d := by
  interval_cases d <;> rfl

theorem toDigitsCore_codes : ∀ (fuel n : Nat) (ds : List Char),
    (Nat.toDigitsCore 10 fuel n ds).map Char.toNat = itoa_loop fuel n (ds.map Char.toNat)
  | 0, _, _ => rfl
  | fuel + 1, n, ds => by
    have hd := digitChar_toNat (n % 10) (Nat.mod_lt _ (by decide))
    by_cases h : n / 10 = 0
    · simp [Nat.toDigitsCore, itoa_loop, h, hd]
    · simp only [Nat.toDigitsCore, itoa_loop, h, if_false]
      rw [toDigitsCore_codes fuel (n / 10) _]
      simp [hd]

theorem repr_codes (n : Nat) :
    (Nat.repr n).toList.map Char.toNat = itoa_loop (n + 1) n [] := by
  have h := toDigitsCore_codes (n + 1) n []
  simpa [Nat.repr, Nat.toDigits, List.asString] using h

theorem itoa_eq_decimalText (v : Int) : itoa v = decimalText v := by
  cases v with
  | ofNat m =>
    have h : ¬ (Int.ofNat m < 0) := by simp
    simp only [itoa, h, if_false, decimalText]
    exact (repr_codes m).symm
  | negSucc m =>
    have h : Int.negSucc m < 0 := Int.negSucc_lt_zero m
    simp only [itoa, h, if_true, decimalText]
    have h2 := repr_codes (m + 1)
    show 45 :: itoa_loop (m + 1 + 1) (m + 1) [] = _
    rw [← h2]
    rfl

theorem itoa_loop_length : ∀ (fuel n k : Nat) (acc : List Nat), 0 < k → n < 10 ^ k →
    (itoa_loop fuel n acc).length ≤ acc.length + k
  | 0, _, _, _, _, _ => by simp [itoa_loop]
  | fuel + 1, n, k, acc, hk, hn => by
    by_cases h : n / 10 = 0
    · simp only [itoa_loop, h, if_true, List.length_cons]
      omega
    · simp only [itoa_loop, h, if_false]
      obtain ⟨j, rfl⟩ : ∃ j, k = j + 1 := ⟨k - 1, by omega⟩
      have hj : 0 < j := by
        rcases Nat.eq_zero_or_pos j with h0 | h0
        · subst h0
          simp at hn
          omega
        · exact h0
      have hn2 : n / 10 < 10 ^ j := by
        rw [Nat.div_lt_iff_lt_mul (by decide)]
        rw [pow_succ] at hn
        exact hn
      have := itoa_loop_length fuel (n / 10) j ((48 + n % 10) :: acc) hj hn2
      simp only [List.length_cons] at this
      omega

theorem itoa_loop_codes : ∀ (fuel n : Nat) (acc : List Nat),
    (∀ x ∈ acc, x ≠ 0 ∧ x < 256) → ∀ x ∈ itoa_loop fuel n acc, x ≠ 0 ∧ x < 256
  | 0, _, _, hacc => by simpa [itoa_loop] using hacc
  | fuel + 1, n, acc, hacc => by
    have hacc2 : ∀ x ∈ (48 + n % 10) :: acc, x ≠ 0 ∧ x < 256 := by
      intro x hx
      rcases List.mem_cons.mp hx with rfl | hx
      · omega
      · exact hacc x hx
    by_cases h : n / 10 = 0
    · simpa only [itoa_loop, h, if_true] using hacc2
    · simp only [itoa_loop, h, if_false]
      exact itoa_loop_codes fuel (n / 10) _ hacc2

theorem itoa_length (v : Int) (hlo : -32768 ≤ v) (hhi : v ≤ 32767) : (itoa v).length ≤ 6 := by
  unfold itoa
  split
  · have := itoa_loop_length (v.natAbs + 1) v.natAbs 5 [] (by decide) (by omega)
    simp only [List.length_cons, List.length_nil] at this ⊢
    omega
  · have := itoa_loop_length (v.toNat + 1) v.toNat 5 [] (by decide) (by omega)
    simp only [List.length_nil] at this
    omega

theorem itoa_codes (v : Int) : ∀ x ∈ itoa v, x ≠ 0 ∧ x < 256 := by
  unfold itoa
  split
  · intro x hx
    rcases List.mem_cons.mp hx with rfl | hx
    · decide
    · exact itoa_loop_codes _ _ [] (by simp) x hx
  · exact itoa_loop_codes _ _ [] (by simp)

/-- `LCDDispString` returns on every NUL-terminated string of at most 255 characters. -/
theorem LCDDispString_some (sc : Bool) (cs rest : List Nat) (s : State)
    (hc : ∀ x ∈ cs, x ≠ 0 ∧ x < 256) (hn : cs.length ≤ 255) :
    ∃ t, LCDDispString sc (cs ++ 0 :: rest) s = some t := by
  obtain ⟨t1, c1, h1, hw1, htr1, -⟩ := LCDClear_sent sc s (Bus.init s) ⟨rfl, rfl, rfl⟩
  obtain ⟨t, c, ht, -⟩ :=
    LCDDispString_loop_sent sc rest cs [] 513 s t1 _ c1 hc (by simpa using hn)
      (by omega) hw1 htr1
  refine ⟨t, ?_⟩
  simp only [List.nil_append, List.length_nil] at ht
  simp [LCDDispString, h1]
  simpa using ht

/-- What follows the NUL in memory has no influence on the loop of `LCDDispString`. -/
theorem LCDDispString_loop_rest (sc : Bool) (r1 r2 : List Nat) :
    ∀ (cs pre : List Nat) (fuel flag : Nat) (t : State),
      (∀ x ∈ cs, x ≠ 0) → pre.length + cs.length ≤ 255 →
      LCDDispString_loop sc (pre ++ cs ++ 0 :: r1) fuel pre.length flag t
        = LCDDispString_loop sc (pre ++ cs ++ 0 :: r2) fuel pre.length flag t := by
  intro cs
  induction cs with
  | nil =>
    intro pre fuel flag t _ _
    cases fuel with
    | zero => rfl
    | succ f =>
      rw [List.append_nil, LCDDispString_loop_stop sc _ f _ _ t (getElem?_length_append pre 0 r1),
        LCDDispString_loop_stop sc _ f _ _ t (getElem?_length_append pre 0 r2)]
  | cons x cs ih =>
    intro pre fuel flag t hc hn
    cases fuel with
    | zero => rfl
    | succ f =>
      have hx0 : x ≠ 0 := hc x (List.mem_cons_self _ _)
      have hc2 : ∀ y ∈ cs, y ≠ 0 := fun y hy => hc y (List.mem_cons_of_mem _ hy)
      simp only [List.length_cons] at hn
      have hi1 : (pre.length + 1) % 256 = pre.length + 1 := by omega
      have hlen : (pre ++ [x]).length = pre.length + 1 := by simp
      have hstr : ∀ r : List Nat, pre ++ x :: cs ++ 0 :: r = (pre ++ [x]) ++ cs ++ 0 :: r := by
        intro r
        simp
      have hget : ∀ r : List Nat, (pre ++ x :: cs ++ 0 :: r)[pre.length]? = some x := by
        intro r
        rw [List.append_assoc, List.cons_append]
        exact getElem?_length_append pre x (cs ++ 0 :: r)
      have key : ∀ (g : Nat) (u : State),
          LCDDispString_loop sc (pre ++ x :: cs ++ 0 :: r1) f (pre.length + 1) g u
            = LCDDispString_loop sc (pre ++ x :: cs ++ 0 :: r2) f (pre.length + 1) g u := by
        intro g u
        have := ih (pre ++ [x]) f g u hc2 (by rw [hlen]; omega)
        rwa [hlen, ← hstr r1, ← hstr r2] at this
      rw [LCDDispString_loop_step sc _ f _ _ x t (hget r1) hx0,
        LCDDispString_loop_step sc _ f _ _ x t (hget r2) hx0, hi1]
      simp only [key]

/-! ## Claims -/

/-- C1: `sendInstruction(B)` and `sendData(B)` each make the controller latch exactly two
nibbles, bits 7..4 of `B` and then bits 3..0 of `B` (on DB7 = PORTH 4, DB6 = PORTH 3,
DB5 = PORTE 3, DB4 = PORTG 5), with RS low for an instruction and high for data, and leave
E low.  Entered with E low, as after reset and after every operation of the driver, that
is exactly two enable pulses, each 8 cycles long with RS and the data lines unchanged
while E is high. -/
theorem C1_two_pulses_high_then_low_nibble (sc : Bool) (B : Nat) (s : State) :
    (∃ t, sendInstruction sc B s = some t ∧ (observe s t).enable = false ∧
      (observe s t).done.map (fun l => (l.rs, l.nib))
        = [(false, B / 16 % 16), (false, B % 16)] ∧
      (s.PORTH.testBit 6 = false → (observe s t).done
        = [⟨false, B / 16 % 16, 1, 8, true⟩, ⟨false, B % 16, 1, 8, true⟩])) ∧
    (∃ t, sendData sc B s = some t ∧ (observe s t).enable = false ∧
      (observe s t).done.map (fun l => (l.rs, l.nib))
        = [(true, B / 16 % 16), (true, B % 16)] ∧
      (s.PORTH.testBit 6 = false → (observe s t).done
        = [⟨true, B / 16 % 16, 1, 8, true⟩, ⟨true, B % 16, 1, 8, true⟩])) := by
  constructor
  · obtain ⟨t, c, ht, hw, -, hen, -, l1, hd, hrs, hnib, hl⟩ :=
      sendInstruction_watch sc B s (Bus.init s) ⟨rfl, rfl, rfl⟩
    refine ⟨t, ht, ?_, ?_, ?_⟩
    · rw [hw.observe, hen]
    · rw [hw.observe, hd]
      simp [Bus.init, hrs, hnib]
    · intro hE
      rw [hw.observe, hd, hl hE]
      rfl
  · obtain ⟨t, c, ht, hw, -, hen, -, l1, hd, hrs, hnib, hl⟩ :=
      sendData_watch sc B s (Bus.init s) ⟨rfl, rfl, rfl⟩
    refine ⟨t, ht, ?_, ?_, ?_⟩
    · rw [hw.observe, hen]
    · rw [hw.observe, hd]
      simp [Bus.init, hrs, hnib]
    · intro hE
      rw [hw.observe, hd, hl hE]
      rfl

/-- Witness for C1: the byte 0xA5 sent as data from the reset state, where E is low. -/
theorem C1_witness :
    State.reset.PORTH.testBit 6 = false ∧
    ∃ t, sendData true 0xA5 State.reset = some t ∧ (observe State.reset t).enable = false ∧
      (observe State.reset t).done = [⟨true, 10, 1, 8, true⟩, ⟨true, 5, 1, 8, true⟩] := by
  refine ⟨by decide, ?_⟩
  obtain ⟨t, ht, hen, -, hd⟩ :=
    (C1_two_pulses_high_then_low_nibble true 0xA5 State.reset).2
  exact ⟨t, ht, hen, hd (by decide)⟩

/-- C3: for a row `y` of 0 or 1, `LCDGotoXY(x, y)` sends exactly one byte, as an instruction:
`0x80 | (y*0x40 + x mod 16)`, which is `0x80 + y*0x40 + x mod 16` (bit 7 set, the address in
the low seven bits); it is followed by the 37 µs wait.  For a row above 1 the call returns
the state it was given: no event at all, so no pulse and no register change. -/
theorem C3_gotoXY_address_or_nothing (sc : Bool) (x y : Nat) (s : State) :
    (y ≤ 1 → ∃ t, LCDGotoXY sc x y s = some t ∧
      received s t = some [⟨false, 0x80 ||| (y * 0x40 + x % 16), 1 + 16 * 37⟩] ∧
      0x80 ||| (y * 0x40 + x % 16) = 0x80 + y * 0x40 + x % 16) ∧
    (1 < y → LCDGotoXY sc x y s = some s ∧ emitted s s = [] ∧ (observe s s).done = []) := by
  constructor
  · intro hy
    have hor := lor_128 y (by omega) (x % 16) (Nat.mod_lt _ (by decide))
    obtain ⟨t, ht, -, hr⟩ :=
      sendInstruction_received sc ((128 ||| (y * 64 + x % 16) % 256) % 256) s 37
    refine ⟨t.delay_us 37, ?_, ?_, hor⟩
    · simp [LCDGotoXY, Nat.not_lt.mpr hy, ht]
    · rw [hr]
      have h1 : (y * 64 + x % 16) % 256 = y * 64 + x % 16 := by omega
      simp only [h1, hor]
      have h2 : (128 + y * 64 + x % 16) % 256 = 128 + y * 64 + x % 16 := by omega
      simp [h2]
  · intro hy
    refine ⟨by simp [LCDGotoXY, hy], by simp [emitted], by simp [observe, emitted, Bus.init]⟩

/-- Witness for C3: column 21 on row 1 gives the address byte 0xC5 (address 0x45); on row 2
nothing happens. -/
theorem C3_witness :
    ((1 : Nat) ≤ 1 ∧ (1 : Nat) < 2) ∧
    (∃ t, LCDGotoXY true 21 1 State.reset = some t ∧
      received State.reset t = some [⟨false, 0xC5, 593⟩] ∧ 0xC5 = 0x80 + 1 * 0x40 + 21 % 16) ∧
    (LCDGotoXY true 21 2 State.reset = some State.reset ∧
      emitted State.reset State.reset = [] ∧ (observe State.reset State.reset).done = []) :=
  ⟨⟨by decide, by decide⟩,
   (C3_gotoXY_address_or_nothing true 21 1 State.reset).1 (by decide),
   (C3_gotoXY_address_or_nothing true 21 2 State.reset).2 (by decide)⟩

/-- C7 (the code at the failing input): `LCDOnOffControl(2, 0)` sends the display-control
byte 0x0C, whose cursor bit (bit 1) is clear although `cursor` is not 0; likewise
`LCDOnOffControl(0, 2)` sends 0x0C with the blink bit clear although `blink` is not 0. -/
theorem C7_cursor_two_sends_cursor_off (sc : Bool) (s : State) :
    (∃ t, LCDOnOffControl sc 2 0 s = some t ∧ sent s t = some [(false, 0x0C)]) ∧
    (∃ t, LCDOnOffControl sc 0 2 s = some t ∧ sent s t = some [(false, 0x0C)]) ∧
    Nat.testBit 0x0C 1 = false ∧ Nat.testBit 0x0C 0 = false := by
  refine ⟨?_, ?_, by decide, by decide⟩
  · obtain ⟨t, ht, -, hs⟩ := sendInstruction_alone sc 0x0C s
    exact ⟨t, ht, hs⟩
  · obtain ⟨t, ht, -, hs⟩ := sendInstruction_alone sc 0x0C s
    exact ⟨t, ht, hs⟩

/-- C8 (the code at the failing inputs): from any state, `LCDCursorLeft`, `LCDCursorRight`,
`LCDShiftLeft`, `LCDShiftRight` and `LCDOnOffControl(0, 0)` return with a single clock cycle
(the one `_NOP()` of `wait_ns(50)`) of waiting after the second pulse of their instruction,
far less than the `16 * 37` cycles that make 37 µs. -/
theorem C8_no_settle_after_shift_instructions (sc : Bool) (s : State) :
    (∃ t, LCDCursorLeft sc s = some t ∧ received s t = some [⟨false, 0x10, 1⟩]) ∧
    (∃ t, LCDCursorRight sc s = some t ∧ received s t = some [⟨false, 0x14, 1⟩]) ∧
    (∃ t, LCDShiftLeft sc s = some t ∧ received s t = some [⟨false, 0x18, 1⟩]) ∧
    (∃ t, LCDShiftRight sc s = some t ∧ received s t = some [⟨false, 0x1C, 1⟩]) ∧
    (∃ t, LCDOnOffControl sc 0 0 s = some t ∧ received s t = some [⟨false, 0x0C, 1⟩]) ∧
    1 < 16 * 37 := by
  refine ⟨?_, ?_, ?_, ?_, ?_, by decide⟩
  · obtain ⟨t, ht, hr, -⟩ := sendInstruction_alone sc 0x10 s
    exact ⟨t, ht, hr⟩
  · obtain ⟨t, ht, hr, -⟩ := sendInstruction_alone sc 0x14 s
    exact ⟨t, ht, hr⟩
  · obtain ⟨t, ht, hr, -⟩ := sendInstruction_alone sc 0x18 s
    exact ⟨t, ht, hr⟩
  · obtain ⟨t, ht, hr, -⟩ := sendInstruction_alone sc 0x1C s
    exact ⟨t, ht, hr⟩
  · obtain ⟨t, ht, hr, -⟩ := sendInstruction_alone sc 0x0C s
    exact ⟨t, ht, hr⟩

/-- C9: from any state, `LCDCursorLeft`, `LCDCursorRight`, `LCDShiftLeft` and
`LCDShiftRight` each send exactly one byte, as an instruction and no data byte: 0x10, 0x14,
0x18 and 0x1C respectively; bit 3 (display shift) of the byte is clear for the two cursor
operations and set for the two shift operations. -/
theorem C9_cursor_and_shift_bytes (sc : Bool) (s : State) :
    (∃ t B, LCDCursorLeft sc s = some t ∧ sent s t = some [(false, B)] ∧ B = 0x10 ∧
      B.testBit 3 = false) ∧
    (∃ t B, LCDCursorRight sc s = some t ∧ sent s t = some [(false, B)] ∧ B = 0x14 ∧
      B.testBit 3 = false) ∧
    (∃ t B, LCDShiftLeft sc s = some t ∧ sent s t = some [(false, B)] ∧ B = 0x18 ∧
      B.testBit 3 = true) ∧
    (∃ t B, LCDShiftRight sc s = some t ∧ sent s t = some [(false, B)] ∧ B = 0x1C ∧
      B.testBit 3 = true) := by
  refine ⟨?_, ?_, ?_, ?_⟩
  · obtain ⟨t, ht, -, hs⟩ := sendInstruction_alone sc 0x10 s
    exact ⟨t, 0x10, ht, hs, rfl, by decide⟩
  · obtain ⟨t, ht, -, hs⟩ := sendInstruction_alone sc 0x14 s
    exact ⟨t, 0x14, ht, hs, rfl, by decide⟩
  · obtain ⟨t, ht, -, hs⟩ := sendInstruction_alone sc 0x18 s
    exact ⟨t, 0x18, ht, hs, rfl, by decide⟩
  · obtain ⟨t, ht, -, hs⟩ := sendInstruction_alone sc 0x1C s
    exact ⟨t, 0x1C, ht, hs, rfl, by decide⟩

/-- C10: from any state, a second `LCDClear` right after a first leaves PORTH, PORTE and
PORTG as the first left them, and in both runs the controller receives nothing but
clear-display instructions, so the last one received is 0x01 either way. -/
theorem C10_clear_twice_same_ports (sc : Bool) (s : State) :
    ∃ t u, LCDClear sc s = some t ∧ LCDClear sc t = some u ∧
      u.PORTH = t.PORTH ∧ u.PORTE = t.PORTE ∧ u.PORTG = t.PORTG ∧
      sent s t = some [(false, 0x01)] ∧
      sent s u = some [(false, 0x01), (false, 0x01)] ∧
      (sent s t).map List.getLast? = some (some (false, 0x01)) ∧
      (sent s u).map List.getLast? = some (some (false, 0x01)) := by
  obtain ⟨t, c, ht, hw, htr, hen, -, hwires, hH, hE, hG⟩ :=
    LCDClear_sent sc s (Bus.init s) ⟨rfl, rfl, rfl⟩
  obtain ⟨u, d, hu, hw2, -, -, -, hwires2, hH2, hE2, hG2⟩ := LCDClear_sent sc t c htr
  have hst : sent s t = some [(false, 0x01)] := by
    rw [sent_eq_wires, hw.observe, hwires, wires_init]
    rfl
  have hsu : sent s u = some [(false, 0x01), (false, 0x01)] := by
    rw [sent_eq_wires, (hw.trans hw2).observe, hwires2, hwires, wires_init]
    rfl
  obtain ⟨iH, iE, iG⟩ := clear_regs_idem s.PORTH s.PORTE s.PORTG
  refine ⟨t, u, ht, hu, ?_, ?_, ?_, hst, hsu, ?_, ?_⟩
  · rw [hH2, hH, iH]
  · rw [hE2, hE, iE]
  · rw [hG2, hG, iG]
  · rw [hst]
    rfl
  · rw [hsu]
    rfl

/-- C2: from any state `LCDInit` returns, and what the controller sees is four single pulses
followed by exactly five bytes, all with RS low, in the order 0x28, 0x08, 0x01, 0x06, 0x0C;
the clear (0x01) is followed by at least 1520 µs of waiting and each of the others by at
least 37 µs (a µs is 16 clock cycles). -/
theorem C2_init_sends_five_instructions (sc : Bool) (s : State) :
    ∃ t, LCDInit sc s = some t ∧ (observe s t).done.length = 4 + 2 * 5 ∧
      ∃ ts, decode ((observe s t).done.drop 4) (observe s t).gap = some ts ∧
        ts.map Transfer.wire
          = [(false, 0x28), (false, 0x08), (false, 0x01), (false, 0x06), (false, 0x0C)] ∧
        ∀ tr ∈ ts, (if tr.byte = 0x01 then 16 * 1520 else 16 * 37) ≤ tr.settle := by
  simp only [LCDInit, Option.bind_eq_bind]
  obtain ⟨c0, hw0, htr0, hd0, -⟩ := LCDInit_prelude s
  obtain ⟨t1, c1, h1, hw1, htr1, hen1, hg1, l1, hd1, -⟩ := pulse_E_watch sc _ c0 htr0
  have hw1 := hw0.trans hw1
  refine bind_rule h1 ?_
  obtain ⟨hw1, htr1⟩ := delay_ms_after 10 hw1 htr1 hen1
  obtain ⟨t2, c2, h2, hw2, htr2, hen2, hg2, hd2⟩ := pulse_after sc hw1 htr1 hen1
  refine bind_rule h2 ?_
  obtain ⟨hw2, htr2⟩ := delay_ms_after 10 hw2 htr2 hen2
  obtain ⟨t3, c3, h3, hw3, htr3, hen3, hg3, hd3⟩ := pulse_after sc hw2 htr2 hen2
  refine bind_rule h3 ?_
  obtain ⟨hw3, htr3⟩ := delay_ms_after 10 hw3 htr3 hen3
  obtain ⟨hw3, htr3, hen3⟩ :=
    setPORTG_after ((t3.delay_ms 10).PORTG &&& 0b11011111) hw3 htr3 hen3
  obtain ⟨t4, c4, h4, hw4, htr4, hen4, hg4, hd4⟩ := pulse_after sc hw3 htr3 hen3
  refine bind_rule h4 ?_
  obtain ⟨t5, c5, h5, hw5, htr5, hen5, hg5, hd5⟩ := instr_after sc 0b00101000 hw4 htr4 hen4
  refine bind_rule h5 ?_
  obtain ⟨hw5, htr5⟩ := delay_us_after 37 hw5 htr5 hen5
  obtain ⟨t6, c6, h6, hw6, htr6, hen6, hg6, hd6⟩ := instr_after sc 0b00001000 hw5 htr5 hen5
  refine bind_rule h6 ?_
  obtain ⟨hw6, htr6⟩ := delay_us_after 37 hw6 htr6 hen6
  obtain ⟨t7, c7, h7, hw7, htr7, hen7, hg7, hd7⟩ := instr_after sc 0b00000001 hw6 htr6 hen6
  refine bind_rule h7 ?_
  obtain ⟨hw7, htr7⟩ := delay_us_after 1520 hw7 htr7 hen7
  obtain ⟨t8, c8, h8, hw8, htr8, hen8, hg8, hd8⟩ := instr_after sc 0b00000110 hw7 htr7 hen7
  refine bind_rule h8 ?_
  obtain ⟨hw8, htr8⟩ := delay_us_after 37 hw8 htr8 hen8
  obtain ⟨t9, c9, h9, hw9, htr9, hen9, hg9, hd9⟩ := instr_after sc 0b00001100 hw8 htr8 hen8
  refine bind_rule h9 ?_
  obtain ⟨hw9, htr9⟩ := delay_us_after 37 hw9 htr9 hen9
  refine ⟨_, rfl, ?_⟩
  rw [hw9.observe]
  simp only [hd9, hd8, hd7, hd6, hd5, hd4, hd3, hd2, hd1, hd0, hg9, hg8, hg7, hg6, hg5, hg4]
  simp [decode, Transfer.wire]

/-- C5: for a slot below 8 and a pattern `p` of eight bytes, `LCDLoadUDC(slot, p)` sends, and
nothing else: the instruction byte `0x40 + 8*slot`, whose bits 7..6 are 01, then the eight
bytes of `p` in order, as data. -/
theorem C5_loadUDC_address_then_eight_bytes (sc : Bool) (slot : Nat) (p : List Nat) (s : State)
    (hslot : slot < 8) (hp : p.length = 8) (hb : ∀ x ∈ p, x < 256) :
    ∃ t, LCDLoadUDC sc slot p s = some t ∧
      sent s t = some ((false, 0x40 + 8 * slot) :: p.map (fun x => (true, x))) ∧
      (0x40 + 8 * slot) / 64 = 1 := by
  obtain ⟨t1, c1, h1, hw1, htr1, -, -, hwi1⟩ :=
    sendInstruction_sent sc ((0x40 + 8 * slot) % 256) s (Bus.init s) ⟨rfl, rfl, rfl⟩
  obtain ⟨t, c, ht, hw, -, hwi⟩ :=
    LCDLoadUDC_loop_sent sc p hp 8 0 9 s t1 _ c1 rfl (by decide) hw1 htr1
  refine ⟨t, ?_, ?_, by omega⟩
  · simp [LCDLoadUDC, h1, ht]
  · rw [sent_eq_wires, hw.observe, hwi, hwi1, wires_init]
    have hm : (0x40 + 8 * slot) % 256 % 256 = 0x40 + 8 * slot := by omega
    have hmap : p.map (fun x => (true, x % 256)) = p.map (fun x => (true, x)) :=
      List.map_congr_left (fun x hx => by rw [Nat.mod_eq_of_lt (hb x hx)])
    simp [hm, hmap]

/-- Witness for C5: slot 3, whose address byte is 0x58. -/
theorem C5_witness :
    (3 < 8 ∧ [0x0E, 0x11, 0x11, 0x1F, 0x11, 0x11, 0x11, 0x00].length = 8 ∧
      ∀ x ∈ [0x0E, 0x11, 0x11, 0x1F, 0x11, 0x11, 0x11, 0x00], x < 256) ∧
    ∃ t, LCDLoadUDC true 3 [0x0E, 0x11, 0x11, 0x1F, 0x11, 0x11, 0x11, 0x00] State.reset
        = some t ∧
      sent State.reset t
        = some [(false, 0x58), (true, 0x0E), (true, 0x11), (true, 0x11), (true, 0x1F),
            (true, 0x11), (true, 0x11), (true, 0x11), (true, 0x00)] ∧
      0x58 / 64 = 1 :=
  ⟨⟨by decide, by decide, by decide⟩,
   C5_loadUDC_address_then_eight_bytes true 3 [0x0E, 0x11, 0x11, 0x1F, 0x11, 0x11, 0x11, 0x00]
    State.reset (by decide) (by decide) (by decide)⟩

/-- C4: for a string `cs` of at most 255 characters (bytes 1..255) followed by NUL,
`LCDDispString` returns and sends, in order and nothing else: the clear instruction 0x01;
the first `min(n,16)` characters as data; if `n ≥ 16`, one instruction 0xC0 (DDRAM address
0x40: column 0 of row 1); the remaining characters as data. -/
theorem C4_dispString_clear_wrap_once (sc : Bool) (cs rest : List Nat) (s : State)
    (hc : ∀ x ∈ cs, x ≠ 0 ∧ x < 256) (hn : cs.length ≤ 255) :
    ∃ t, LCDDispString sc (cs ++ 0 :: rest) s = some t ∧
      sent s t = some ([(false, 0x01)] ++ (cs.take 16).map (fun x => (true, x))
        ++ (if 16 ≤ cs.length then [(false, 0xC0)] else [])
        ++ (cs.drop 16).map (fun x => (true, x))) := by
  obtain ⟨t1, c1, h1, hw1, htr1, -, -, hwi1, -⟩ :=
    LCDClear_sent sc s (Bus.init s) ⟨rfl, rfl, rfl⟩
  obtain ⟨t, c, ht, hw, -, hwi⟩ :=
    LCDDispString_loop_sent sc rest cs [] 513 s t1 _ c1 hc (by simpa using hn)
      (by omega) hw1 htr1
  refine ⟨t, ?_, ?_⟩
  · simp only [List.nil_append, List.length_nil] at ht
    simp [LCDDispString, h1]
    simpa using ht
  · rw [sent_eq_wires, hw.observe, hwi, hwi1, wires_init]
    simp [wiresFrom_low cs 0 (by decide)]

/-- Witness for C4: the 18 characters "ABCDEFGHIJKLMNOPQR": clear, 'A'..'P', one 0xC0,
then 'Q' and 'R'. -/
theorem C4_witness :
    ((∀ x ∈ [65, 66, 67, 68, 69, 70, 71, 72, 73, 74, 75, 76, 77, 78, 79, 80, 81, 82],
        x ≠ 0 ∧ x < 256) ∧
      [65, 66, 67, 68, 69, 70, 71, 72, 73, 74, 75, 76, 77, 78, 79, 80, 81, 82].length ≤ 255) ∧
    ∃ t, LCDDispString true
        ([65, 66, 67, 68, 69, 70, 71, 72, 73, 74, 75, 76, 77, 78, 79, 80, 81, 82] ++ 0 :: [])
        State.reset = some t ∧
      sent State.reset t = some [(false, 0x01),
        (true, 65), (true, 66), (true, 67), (true, 68), (true, 69), (true, 70), (true, 71),
        (true, 72), (true, 73), (true, 74), (true, 75), (true, 76), (true, 77), (true, 78),
        (true, 79), (true, 80), (false, 0xC0), (true, 81), (true, 82)] :=
  ⟨⟨by decide, by decide⟩,
   C4_dispString_clear_wrap_once true
    [65, 66, 67, 68, 69, 70, 71, 72, 73, 74, 75, 76, 77, 78, 79, 80, 81, 82] []
    State.reset (by decide) (by decide)⟩

/-- C6: for every 16-bit `v`, the text `itoa` produces is the decimal text of `v`, it has at
most 6 characters (so text and NUL fit the 32-byte array), and `LCDDispInteger(v)` returns
the very state, trace of register writes and waits included, that `LCDDispString` returns
on the decimal text of `v` followed by NUL, whatever follows the NUL in memory. -/
theorem C6_dispInteger_is_dispString_of_decimal (sc : Bool) (v : Int) (stack : Nat → Nat)
    (s : State) (hlo : -32768 ≤ v) (hhi : v ≤ 32767) :
    itoa v = decimalText v ∧ (decimalText v).length ≤ 6 ∧
    (∃ t, LCDDispInteger sc v stack s = some t) ∧
    ∀ rest, LCDDispString sc (decimalText v ++ 0 :: rest) s = LCDDispInteger sc v stack s := by
  have heq := itoa_eq_decimalText v
  have hlen := itoa_length v hlo hhi
  have hcodes := itoa_codes v
  have hfit : (itoa v).length + 1 ≤ 32 := by omega
  have hI : LCDDispInteger sc v stack s
      = LCDDispString sc (itoa v ++ 0 :: ((List.range 32).map stack).drop ((itoa v).length + 1))
          s := by
    simp only [LCDDispInteger, hfit, if_true]
  refine ⟨heq, heq ▸ hlen, ?_, ?_⟩
  · rw [hI]
    exact LCDDispString_some sc (itoa v) _ s hcodes (by omega)
  · intro rest
    rw [hI, ← heq]
    obtain ⟨t1, -, h1, -⟩ := LCDClear_sent sc s (Bus.init s) ⟨rfl, rfl, rfl⟩
    have hloop := LCDDispString_loop_rest sc rest
      (((List.range 32).map stack).drop ((itoa v).length + 1)) (itoa v) [] 513 1 t1
      (fun x hx => (hcodes x hx).1) (by simp; omega)
    simp only [List.nil_append, List.length_nil] at hloop
    simp only [LCDDispString, h1, Option.bind_eq_bind, Option.some_bind]
    exact hloop

/-- Witness for C6: `LCDDispInteger(-42)` is `LCDDispString("-42")`. -/
theorem C6_witness :
    ((-32768 : Int) ≤ -42 ∧ (-42 : Int) ≤ 32767) ∧ decimalText (-42) = [45, 52, 50] ∧
    (itoa (-42) = decimalText (-42) ∧ (decimalText (-42)).length ≤ 6 ∧
      (∃ t, LCDDispInteger true (-42) (fun _ => 0xAA) State.reset = some t) ∧
      ∀ rest, LCDDispString true (decimalText (-42) ++ 0 :: rest) State.reset
        = LCDDispInteger true (-42) (fun _ => 0xAA) State.reset) :=
  ⟨⟨by decide, by decide⟩, by decide,
   C6_dispInteger_is_dispString_of_decimal true (-42) (fun _ => 0xAA) State.reset
    (by decide) (by decide)⟩

theorem testBit_120 :
    Nat.testBit 120 0 = false ∧ Nat.testBit 120 1 = false ∧
    Nat.testBit 120 2 = false ∧ Nat.testBit 120 3 = true ∧
    Nat.testBit 120 4 = true ∧ Nat.testBit 120 5 = true ∧
    Nat.testBit 120 6 = true ∧ Nat.testBit 120 7 = false := by
  decide

/-! ## Keys, backlight and the busy-wait beyond the durations used -/

theorem State.NOPs_zero (s : State) : s.NOPs 0 = s := by
  cases s
  simp [State.NOPs]

theorem State.NOP_NOPs (s : State) (n : Nat) : s.NOP.NOPs n = s.NOPs (n + 1) := by
  simp [State.NOPs, State.NOP, List.replicate_succ]

/-- The loop of `wait_ns` entered with counter `i` at most `nops`, itself at most 127, and
enough fuel: it executes `nops - i` NOPs and ends, whether plain `char` is signed or not. -/
theorem wait_ns_loop_runs (sc : Bool) (nops : Nat) (hn : nops ≤ 127) :
    ∀ (k fuel i : Nat) (s : State), i + k = nops → k < fuel →
      wait_ns_loop sc fuel i nops s = some (s.NOPs k) := by
  intro k
  induction k with
  | zero =>
    intro fuel i s hik hf
    obtain ⟨f, rfl⟩ : ∃ f, fuel = f + 1 := ⟨fuel - 1, by omega⟩
    have hi : ¬ 128 ≤ i := by omega
    have hc : ¬ charVal sc i < (nops : Int) := by
      simp only [charVal, hi, decide_False, Bool.and_false, Bool.false_eq_true, if_false]
      omega
    rw [wait_ns_loop, if_neg hc, State.NOPs_zero]
  | succ k ih =>
    intro fuel i s hik hf
    obtain ⟨f, rfl⟩ : ∃ f, fuel = f + 1 := ⟨fuel - 1, by omega⟩
    have hi : ¬ 128 ≤ i := by omega
    have hc : charVal sc i < (nops : Int) := by
      simp only [charVal, hi, decide_False, Bool.and_false, Bool.false_eq_true, if_false]
      omega
    have hi1 : (i + 1) % 256 = i + 1 := by omega
    rw [wait_ns_loop, if_pos hc, hi1, ih f (i + 1) s.NOP (by omega) (by omega),
      State.NOP_NOPs]

/-- `wait_ns(t)` for `t` up to 8001: it returns after `t/63` rounded up NOPs. -/
theorem wait_ns_runs (sc : Bool) (t : Nat) (s : State) (ht : t ≤ 8001) :
    wait_ns sc t s = some (s.NOPs ((t + 62) / 63)) := by
  unfold wait_ns
  simp only []
  have h1 : t % 65536 = t := by omega
  rw [h1]
  have h2 : (if t % 63 ≠ 0 then (t / 63 % 256 + 1) % 256 else t / 63 % 256)
      = (t + 62) / 63 := by
    split <;> omega
  rw [h2]
  exact wait_ns_loop_runs sc _ (by omega) _ 257 0 s (by omega) (by omega)

/-- With a signed plain `char`, the loop of `wait_ns` never ends once `nops` is 128: the
counter, at most 127, stays below it whatever the fuel. -/
theorem wait_ns_loop_signed_128 : ∀ (fuel i : Nat) (s : State), i < 256 →
    wait_ns_loop true fuel i 128 s = none
  | 0, _, _, _ => rfl
  | fuel + 1, i, s, hi => by
    have hlt : charVal true i < ((128 : Nat) : Int) := by
      unfold charVal
      by_cases h : 128 ≤ i
      · simp only [h, decide_True, Bool.and_self, if_true]
        omega
      · simp only [h, decide_False, Bool.and_false, Bool.false_eq_true, if_false]
        omega
    rw [wait_ns_loop, if_pos hlt]
    exact wait_ns_loop_signed_128 fuel ((i + 1) % 256) s.NOP (Nat.mod_lt _ (by decide))

/-! ## `LCDInit` from the reset values of the ports -/

theorem pulse_E_regs (sc : Bool) (s t : State) (h : pulse_E sc s = some t) :
    t.PORTH = ((s.PORTH ||| 0b01000000) % 256 &&& 0b10111111) % 256 ∧
    t.PORTE = s.PORTE ∧ t.PORTG = s.PORTG ∧
    t.DDRH = s.DDRH ∧ t.DDRE = s.DDRE ∧ t.DDRG = s.DDRG := by
  simp only [pulse_E, wait_ns_450, wait_ns_50, Option.bind_eq_bind, Option.some_bind,
    Option.some.injEq] at h
  subst h
  exact ⟨rfl, rfl, rfl, rfl, rfl, rfl⟩

/-- A pulse made while E is low and the ports hold `H`, `E`, `G`: the latch and the ports
afterwards. -/
theorem pulse_after_vals (sc : Bool) {s t : State} {b c : Bus} (hw : Watch s t b c)
    (htr : Tracks c t) (hen : c.enable = false) {H E G : Nat}
    (hH : t.PORTH = H) (hE : t.PORTE = E) (hG : t.PORTG = G) :
    ∃ u d, pulse_E sc t = some u ∧ Watch s u b d ∧ Tracks d u ∧ d.enable = false ∧
      d.gap = 1 ∧
      d.done = c.done ++ [⟨H.testBit 5,
        8 * (H.testBit 4).toNat + 4 * (H.testBit 3).toNat + 2 * (E.testBit 3).toNat
          + (G.testBit 5).toNat, c.gap, 8, true⟩] ∧
      u.PORTH = ((H ||| 0b01000000) % 256 &&& 0b10111111) % 256 ∧ u.PORTE = E ∧ u.PORTG = G ∧
      u.DDRH = t.DDRH ∧ u.DDRE = t.DDRE ∧ u.DDRG = t.DDRG := by
  obtain ⟨u, d, hu, hw2, htr2, hen2, hg2, hd⟩ := pulse_after sc hw htr hen
  obtain ⟨r1, r2, r3, r4, r5, r6⟩ := pulse_E_regs sc t u hu
  obtain ⟨b1, b2, b3⟩ := htr
  refine ⟨u, d, hu, hw2, htr2, hen2, hg2, ?_, ?_, ?_, ?_, r4, r5, r6⟩
  · rw [hd]
    simp [Bus.rs, Bus.nibble, b1, b2, b3, hH, hE, hG]
  · rw [r1, hH]
  · rw [r2, hE]
  · rw [r3, hG]

theorem emitted_append {s x t : State} (h1 : ∃ e, x.trace = s.trace ++ e)
    (h2 : ∃ e, t.trace = x.trace ++ e) : emitted s t = emitted s x ++ emitted x t := by
  obtain ⟨e1, h1⟩ := h1
  obtain ⟨e2, h2⟩ := h2
  simp [emitted, h2, h1]

theorem Watch.extends {s t : State} {b c : Bus} (h : Watch s t b c) :
    ∃ e, t.trace = s.trace ++ e := by
  obtain ⟨e, he, -⟩ := h
  exact ⟨e, he⟩

/-- `LCDInit` entered with PORTH, PORTE and PORTG all zero: the direction registers at the
end, the first four events, and every pulse the controller sees. -/
theorem LCDInit_from_zero (sc : Bool) (s : State) (hH : s.PORTH = 0) (hE : s.PORTE = 0)
    (hG : s.PORTG = 0) :
    ∃ t, LCDInit sc s = some t ∧
      t.DDRH = (s.DDRH ||| 0b01111000) % 256 ∧ t.DDRE = (s.DDRE ||| 0b00001000) % 256 ∧
      t.DDRG = (s.DDRG ||| 0b00100000) % 256 ∧
      (emitted s t).take 4 = [Ev.wDDRH ((s.DDRH ||| 0b01111000) % 256),
        Ev.wDDRE ((s.DDRE ||| 0b00001000) % 256), Ev.wDDRG ((s.DDRG ||| 0b00100000) % 256),
        Ev.delay_ms 50] ∧
      (observe s t).done
        = [⟨false, 0b0011, 16000 * 50, 8, true⟩, ⟨false, 0b0011, 16000 * 10 + 1, 8, true⟩,
           ⟨false, 0b0011, 16000 * 10 + 1, 8, true⟩, ⟨false, 0b0010, 16000 * 10 + 1, 8, true⟩,
           ⟨false, 2, 2, 8, true⟩, ⟨false, 8, 1, 8, true⟩,
           ⟨false, 0, 594, 8, true⟩, ⟨false, 8, 1, 8, true⟩,
           ⟨false, 0, 594, 8, true⟩, ⟨false, 1, 1, 8, true⟩,
           ⟨false, 0, 24322, 8, true⟩, ⟨false, 6, 1, 8, true⟩,
           ⟨false, 0, 594, 8, true⟩, ⟨false, 12, 1, 8, true⟩] ∧
      (observe s t).gap = 593 := by
  simp only [LCDInit, Option.bind_eq_bind]
  have hen : s.PORTH.testBit 6 = false := by rw [hH]; decide
  obtain ⟨c0, hw0, htr0, hd0, hlow⟩ := LCDInit_prelude s
  obtain ⟨hen0, hg0⟩ := hlow hen
  have hx := hw0.extends
  have hem0 : emitted s ((((((s.setDDRH (s.DDRH ||| 0b01111000)).setDDRE
      (s.DDRE ||| 0b00001000)).setDDRG (s.DDRG ||| 0b00100000)).delay_ms 50).setPORTG
      (s.PORTG ||| 0b00100000)).setPORTE (s.PORTE ||| 0b00001000))
      = [Ev.wDDRH ((s.DDRH ||| 0b01111000) % 256), Ev.wDDRE ((s.DDRE ||| 0b00001000) % 256),
        Ev.wDDRG ((s.DDRG ||| 0b00100000) % 256), Ev.delay_ms 50,
        Ev.wPORTG ((s.PORTG ||| 0b00100000) % 256),
        Ev.wPORTE ((s.PORTE ||| 0b00001000) % 256)] := by
    simp [emitted, State.setDDRH, State.setDDRE, State.setDDRG, State.delay_ms, State.setPORTG,
      State.setPORTE]
  obtain ⟨t1, c1, h1, hw1, htr1, hen1, hg1, hd1, p1H, p1E, p1G, q1H, q1E, q1G⟩ :=
    pulse_after_vals sc (Watch.refl _ c0) htr0 hen0
      (show _ = 0 from hH) (show _ = 8 by simp [State.setPORTE, State.setPORTG, hE])
      (show _ = 32 by simp [State.setPORTE, State.setPORTG, hG])
  refine bind_rule h1 ?_
  have p1H : t1.PORTH = 0 := p1H.trans (by decide)
  obtain ⟨hw1, htr1⟩ := delay_ms_after 10 hw1 htr1 hen1
  obtain ⟨t2, c2, h2, hw2, htr2, hen2, hg2, hd2, p2H, p2E, p2G, q2H, q2E, q2G⟩ :=
    pulse_after_vals sc hw1 htr1 hen1 (show (t1.delay_ms 10).PORTH = 0 from p1H)
      (show (t1.delay_ms 10).PORTE = 8 from p1E) (show (t1.delay_ms 10).PORTG = 32 from p1G)
  refine bind_rule h2 ?_
  have p2H : t2.PORTH = 0 := p2H.trans (by decide)
  obtain ⟨hw2, htr2⟩ := delay_ms_after 10 hw2 htr2 hen2
  obtain ⟨t3, c3, h3, hw3, htr3, hen3, hg3, hd3, p3H, p3E, p3G, q3H, q3E, q3G⟩ :=
    pulse_after_vals sc hw2 htr2 hen2 (show (t2.delay_ms 10).PORTH = 0 from p2H)
      (show (t2.delay_ms 10).PORTE = 8 from p2E) (show (t2.delay_ms 10).PORTG = 32 from p2G)
  refine bind_rule h3 ?_
  have p3H : t3.PORTH = 0 := p3H.trans (by decide)
  obtain ⟨hw3, htr3⟩ := delay_ms_after 10 hw3 htr3 hen3
  obtain ⟨hw3, htr3, hen3⟩ :=
    setPORTG_after ((t3.delay_ms 10).PORTG &&& 0b11011111) hw3 htr3 hen3
  obtain ⟨t4, c4, h4, hw4, htr4, hen4, hg4, hd4, -, -, -, q4H, q4E, q4G⟩ :=
    pulse_after_vals sc hw3 htr3 hen3
      (show ((t3.delay_ms 10).setPORTG ((t3.delay_ms 10).PORTG &&& 0b11011111)).PORTH = 0
        from p3H)
      (show ((t3.delay_ms 10).setPORTG ((t3.delay_ms 10).PORTG &&& 0b11011111)).PORTE = 8
        from p3E)
      (show ((t3.delay_ms 10).setPORTG ((t3.delay_ms 10).PORTG &&& 0b11011111)).PORTG = 0 by
        show ((t3.PORTG &&& 0b11011111) % 256) = 0
        rw [p3G]
        decide)
  refine bind_rule h4 ?_
  obtain ⟨t5, c5, h5, hw5, htr5, hen5, hg5, hd5⟩ := instr_after sc 0b00101000 hw4 htr4 hen4
  obtain ⟨-, -, -, q5H, q5E, q5G⟩ := sendInstruction_regs sc _ _ _ h5
  refine bind_rule h5 ?_
  obtain ⟨hw5, htr5⟩ := delay_us_after 37 hw5 htr5 hen5
  obtain ⟨t6, c6, h6, hw6, htr6, hen6, hg6, hd6⟩ := instr_after sc 0b00001000 hw5 htr5 hen5
  obtain ⟨-, -, -, q6H, q6E, q6G⟩ := sendInstruction_regs sc _ _ _ h6
  refine bind_rule h6 ?_
  obtain ⟨hw6, htr6⟩ := delay_us_after 37 hw6 htr6 hen6
  obtain ⟨t7, c7, h7, hw7, htr7, hen7, hg7, hd7⟩ := instr_after sc 0b00000001 hw6 htr6 hen6
  obtain ⟨-, -, -, q7H, q7E, q7G⟩ := sendInstruction_regs sc _ _ _ h7
  refine bind_rule h7 ?_
  obtain ⟨hw7, htr7⟩ := delay_us_after 1520 hw7 htr7 hen7
  obtain ⟨t8, c8, h8, hw8, htr8, hen8, hg8, hd8⟩ := instr_after sc 0b00000110 hw7 htr7 hen7
  obtain ⟨-, -, -, q8H, q8E, q8G⟩ := sendInstruction_regs sc _ _ _ h8
  refine bind_rule h8 ?_
  obtain ⟨hw8, htr8⟩ := delay_us_after 37 hw8 htr8 hen8
  obtain ⟨t9, c9, h9, hw9, htr9, hen9, hg9, hd9⟩ := instr_after sc 0b00001100 hw8 htr8 hen8
  obtain ⟨-, -, -, q9H, q9E, q9G⟩ := sendInstruction_regs sc _ _ _ h9
  refine bind_rule h9 ?_
  obtain ⟨hw9, htr9⟩ := delay_us_after 37 hw9 htr9 hen9
  refine ⟨_, rfl, ?_, ?_, ?_, ?_, ?_, ?_⟩
  · exact q9H.trans (q8H.trans (q7H.trans (q6H.trans (q5H.trans (q4H.trans (q3H.trans
      (q2H.trans q1H)))))))
  · exact q9E.trans (q8E.trans (q7E.trans (q6E.trans (q5E.trans (q4E.trans (q3E.trans
      (q2E.trans q1E)))))))
  · exact q9G.trans (q8G.trans (q7G.trans (q6G.trans (q5G.trans (q4G.trans (q3G.trans
      (q2G.trans q1G)))))))
  · rw [emitted_append hx hw9.extends, hem0]
    rfl
  · rw [(hw0.trans hw9).observe]
    simp only [hd9, hd8, hd7, hd6, hd5, hd4, hd3, hd2, hd1, hd0, hg9, hg8, hg7, hg6, hg5, hg4,
      hg3, hg2, hg1, hg0]
    decide
  · rw [(hw0.trans hw9).observe]
    simp only [hg9]

/-! ## Frame: bits of the ports that are not LCD lines -/

theorem Frame.same (s : State) : Frame s s := ⟨rfl, rfl, rfl⟩

theorem Frame.comp {s t u : State} (h1 : Frame s t) (h2 : Frame t u) : Frame s u :=
  ⟨h2.1.trans h1.1, h2.2.1.trans h1.2.1, h2.2.2.trans h1.2.2⟩

theorem land_lt_256 (x m : Nat) (hm : m < 256) : x &&& m < 256 :=
  Nat.lt_of_le_of_lt Nat.and_le_right hm

theorem Frame.after_us (s : State) (n : Nat) : Frame s (s.delay_us n) := ⟨rfl, rfl, rfl⟩

theorem Frame.after_ms (s : State) (n : Nat) : Frame s (s.delay_ms n) := ⟨rfl, rfl, rfl⟩

theorem pulse_E_frame (sc : Bool) (s t : State) (h : pulse_E sc s = some t) : Frame s t := by
  obtain ⟨hH, hE, hG, -⟩ := pulse_E_regs sc s t h
  refine ⟨?_, by rw [hE], by rw [hG]⟩
  rw [hH]
  apply eq_of_testBit_lt8 (land_lt_256 _ _ (by decide)) (land_lt_256 _ _ (by decide))
  intro i hi
  interval_cases i <;>
  simp [testBit_mod_256, Nat.testBit_lor, Nat.testBit_land, testBit_64, testBit_191,
    testBit_135, -Nat.testBit_zero]

theorem sendInstruction_frame (sc : Bool) (B : Nat) (s t : State)
    (h : sendInstruction sc B s = some t) : Frame s t := by
  obtain ⟨hH, hE, hG, -⟩ := sendInstruction_regs sc B s t h
  refine ⟨?_, ?_, ?_⟩
  · rw [hH]
    apply eq_of_testBit_lt8 (land_lt_256 _ _ (by decide)) (land_lt_256 _ _ (by decide))
    intro i hi
    interval_cases i <;>
    simp [testBit_mod_256, Nat.testBit_lor, Nat.testBit_land, Nat.testBit_shiftLeft,
      testBit_24, testBit_135, -Nat.testBit_zero]
  · rw [hE]
    apply eq_of_testBit_lt8 (land_lt_256 _ _ (by decide)) (land_lt_256 _ _ (by decide))
    intro i hi
    interval_cases i <;>
    simp [testBit_mod_256, Nat.testBit_lor, Nat.testBit_land, Nat.testBit_shiftLeft,
      testBit_8, testBit_247, -Nat.testBit_zero]
  · rw [hG]
    apply eq_of_testBit_lt8 (land_lt_256 _ _ (by decide)) (land_lt_256 _ _ (by decide))
    intro i hi
    interval_cases i <;>
    simp [testBit_mod_256, Nat.testBit_lor, Nat.testBit_land, Nat.testBit_shiftLeft,
      testBit_32, testBit_223, -Nat.testBit_zero]

theorem sendData_frame (sc : Bool) (B : Nat) (s t : State)
    (h : sendData sc B s = some t) : Frame s t := by
  simp only [sendData, setPins, pulse_E, set4DataPins, wait_ns_450, wait_ns_50,
    wait_ns_40, State.setPORTH, State.setPORTE, State.setPORTG, State.NOP, State.delay_us,
    Option.bind_eq_bind, Option.some_bind, Option.some.injEq] at h
  subst h
  refine ⟨?_, ?_, ?_⟩ <;>
  · apply eq_of_testBit_lt8 (land_lt_256 _ _ (by decide)) (land_lt_256 _ _ (by decide))
    intro i hi
    interval_cases i <;>
    simp [testBit_mod_256, Nat.testBit_lor, Nat.testBit_land, Nat.testBit_shiftLeft,
      Nat.testBit_shiftRight, testBit_64, testBit_191, testBit_231, testBit_24, testBit_247,
      testBit_8, testBit_223, testBit_32, testBit_135, -Nat.testBit_zero]

theorem pulse_E_some (sc : Bool) (s : State) : ∃ t, pulse_E sc s = some t := by
  obtain ⟨t, -, ht, -⟩ := pulse_E_watch sc s (Bus.init s) ⟨rfl, rfl, rfl⟩
  exact ⟨t, ht⟩

theorem sendInstruction_some (sc : Bool) (B : Nat) (s : State) :
    ∃ t, sendInstruction sc B s = some t := by
  obtain ⟨t, -, ht, -⟩ := sendInstruction_watch sc B s (Bus.init s) ⟨rfl, rfl, rfl⟩
  exact ⟨t, ht⟩

theorem sendData_some (sc : Bool) (B : Nat) (s : State) : ∃ t, sendData sc B s = some t := by
  obtain ⟨t, -, ht, -⟩ := sendData_watch sc B s (Bus.init s) ⟨rfl, rfl, rfl⟩
  exact ⟨t, ht⟩

theorem bind_total {x : Option State} {f : State → Option State} (hx : ∃ a, x = some a)
    (hf : ∀ a, ∃ u, f a = some u) : ∃ u, x.bind f = some u := by
  obtain ⟨a, rfl⟩ := hx
  simpa using hf a

theorem LCDInit_some (sc : Bool) (s : State) : ∃ t, LCDInit sc s = some t := by
  simp only [LCDInit, Option.bind_eq_bind]
  refine bind_total (pulse_E_some sc _) (fun t1 => ?_)
  refine bind_total (pulse_E_some sc _) (fun t2 => ?_)
  refine bind_total (pulse_E_some sc _) (fun t3 => ?_)
  refine bind_total (pulse_E_some sc _) (fun t4 => ?_)
  refine bind_total (sendInstruction_some sc _ _) (fun t5 => ?_)
  refine bind_total (sendInstruction_some sc _ _) (fun t6 => ?_)
  refine bind_total (sendInstruction_some sc _ _) (fun t7 => ?_)
  refine bind_total (sendInstruction_some sc _ _) (fun t8 => ?_)
  refine bind_total (sendInstruction_some sc _ _) (fun t9 => ?_)
  exact ⟨_, rfl⟩

theorem bind_some_elim {x : Option State} {f : State → Option State} {t : State}
    (h : x.bind f = some t) : ∃ u, x = some u ∧ f u = some t :=
  Option.bind_eq_some.mp h

theorem LCDInit_frame (sc : Bool) (s t : State) (h : LCDInit sc s = some t) : Frame s t := by
  simp only [LCDInit, Option.bind_eq_bind] at h
  obtain ⟨t1, h1, h⟩ := bind_some_elim h
  obtain ⟨t2, h2, h⟩ := bind_some_elim h
  obtain ⟨t3, h3, h⟩ := bind_some_elim h
  obtain ⟨t4, h4, h⟩ := bind_some_elim h
  obtain ⟨t5, h5, h⟩ := bind_some_elim h
  obtain ⟨t6, h6, h⟩ := bind_some_elim h
  obtain ⟨t7, h7, h⟩ := bind_some_elim h
  obtain ⟨t8, h8, h⟩ := bind_some_elim h
  obtain ⟨t9, h9, h⟩ := bind_some_elim h
  simp only [Option.some.injEq] at h
  subst h
  have f0 : Frame s ((((((s.setDDRH (s.DDRH ||| 0b01111000)).setDDRE
      (s.DDRE ||| 0b00001000)).setDDRG (s.DDRG ||| 0b00100000)).delay_ms 50).setPORTG
      (s.PORTG ||| 0b00100000)).setPORTE (s.PORTE ||| 0b00001000)) := by
    refine ⟨rfl, ?_, ?_⟩ <;>
    · simp only [State.setDDRH, State.setDDRE, State.setDDRG, State.delay_ms, State.setPORTG,
        State.setPORTE]
      apply eq_of_testBit_lt8 (land_lt_256 _ _ (by decide)) (land_lt_256 _ _ (by decide))
      intro i hi
      interval_cases i <;>
      simp [testBit_mod_256, Nat.testBit_lor, Nat.testBit_land, testBit_8, testBit_247,
        testBit_32, testBit_223, -Nat.testBit_zero]
  have f4 : Frame (t3.delay_ms 10)
      ((t3.delay_ms 10).setPORTG ((t3.delay_ms 10).PORTG &&& 0b11011111)) := by
    refine ⟨rfl, rfl, ?_⟩
    simp only [State.delay_ms, State.setPORTG]
    apply eq_of_testBit_lt8 (land_lt_256 _ _ (by decide)) (land_lt_256 _ _ (by decide))
    intro i hi
    interval_cases i <;>
    simp [testBit_mod_256, Nat.testBit_land, testBit_223, -Nat.testBit_zero]
  exact (((((((((((((((((f0.comp (pulse_E_frame sc _ _ h1)).comp (Frame.after_ms t1 10)).comp
    (pulse_E_frame sc _ _ h2)).comp (Frame.after_ms t2 10)).comp
    (pulse_E_frame sc _ _ h3)).comp (Frame.after_ms t3 10)).comp f4).comp
    (pulse_E_frame sc _ _ h4)).comp (sendInstruction_frame sc _ _ _ h5)).comp
    (Frame.after_us t5 37)).comp (sendInstruction_frame sc _ _ _ h6)).comp
    (Frame.after_us t6 37)).comp (sendInstruction_frame sc _ _ _ h7)).comp
    (Frame.after_us t7 1520)).comp (sendInstruction_frame sc _ _ _ h8)).comp
    (Frame.after_us t8 37)).comp (sendInstruction_frame sc _ _ _ h9)).comp
    (Frame.after_us t9 37)

theorem LCDClear_frame (sc : Bool) (s t : State) (h : LCDClear sc s = some t) : Frame s t := by
  simp only [LCDClear, Option.bind_eq_bind] at h
  obtain ⟨u, hu, h⟩ := bind_some_elim h
  simp only [Option.some.injEq] at h
  subst h
  exact (sendInstruction_frame sc _ _ _ hu).comp (Frame.after_us u 1520)

theorem LCDGotoXY_frame (sc : Bool) (x y : Nat) (s t : State)
    (h : LCDGotoXY sc x y s = some t) : Frame s t := by
  unfold LCDGotoXY at h
  split at h
  · simp only [Option.some.injEq] at h
    subst h
    exact Frame.same s
  · simp only [Option.bind_eq_bind] at h
    obtain ⟨u, hu, h⟩ := bind_some_elim h
    simp only [Option.some.injEq] at h
    subst h
    exact (sendInstruction_frame sc _ _ _ hu).comp (Frame.after_us u 37)

theorem LCDGotoXY_some (sc : Bool) (x y : Nat) (s : State) :
    ∃ t, LCDGotoXY sc x y s = some t := by
  unfold LCDGotoXY
  split
  · exact ⟨s, rfl⟩
  · simp only [Option.bind_eq_bind]
    exact bind_total (sendInstruction_some sc _ _) (fun u => ⟨_, rfl⟩)

theorem LCDClear_some (sc : Bool) (s : State) : ∃ t, LCDClear sc s = some t := by
  simp only [LCDClear, Option.bind_eq_bind]
  exact bind_total (sendInstruction_some sc _ _) (fun u => ⟨_, rfl⟩)

theorem LCDDispString_loop_frame (sc : Bool) (str : List Nat) :
    ∀ (fuel i flag : Nat) (s t : State),
      LCDDispString_loop sc str fuel i flag s = some t → Frame s t
  | 0, _, _, _, _, h => by simp [LCDDispString_loop] at h
  | fuel + 1, i, flag, s, t, h => by
    cases hget : str[i]? with
    | none => simp [LCDDispString_loop, hget] at h
    | some ch =>
      by_cases hch : ch = 0
      · subst hch
        rw [LCDDispString_loop_stop sc str fuel i flag s hget] at h
        simp only [Option.some.injEq] at h
        subst h
        exact Frame.same s
      · rw [LCDDispString_loop_step sc str fuel i flag ch s hget hch] at h
        obtain ⟨u, hu, h⟩ := bind_some_elim h
        have f1 : Frame s u := sendData_frame sc _ _ _ hu
        split at h
        · obtain ⟨v, hv, h⟩ := bind_some_elim h
          exact (f1.comp (LCDGotoXY_frame sc _ _ _ _ hv)).comp
            (LCDDispString_loop_frame sc str fuel _ _ _ _ h)
        · exact f1.comp (LCDDispString_loop_frame sc str fuel _ _ _ _ h)

theorem LCDDispString_frame (sc : Bool) (str : List Nat) (s t : State)
    (h : LCDDispString sc str s = some t) : Frame s t := by
  simp only [LCDDispString, Option.bind_eq_bind] at h
  obtain ⟨u, hu, h⟩ := bind_some_elim h
  exact (LCDClear_frame sc _ _ hu).comp (LCDDispString_loop_frame sc str _ _ _ _ _ h)

theorem LCDDispInteger_frame (sc : Bool) (i : Int) (stack : Nat → Nat) (s t : State)
    (h : LCDDispInteger sc i stack s = some t) : Frame s t := by
  unfold LCDDispInteger at h
  simp only [] at h
  split at h
  · exact LCDDispString_frame sc _ _ _ h
  · simp at h

theorem LCDLoadUDC_loop_frame (sc : Bool) (tab : List Nat) :
    ∀ (fuel i : Nat) (s t : State), LCDLoadUDC_loop sc tab fuel i s = some t → Frame s t
  | 0, _, _, _, h => by simp [LCDLoadUDC_loop] at h
  | fuel + 1, i, s, t, h => by
    rw [LCDLoadUDC_loop] at h
    split at h
    · cases hget : tab[i]? with
      | none => simp [hget] at h
      | some d =>
        simp only [hget, Option.bind_eq_bind] at h
        obtain ⟨u, hu, h⟩ := bind_some_elim h
        exact (sendData_frame sc _ _ _ hu).comp (LCDLoadUDC_loop_frame sc tab fuel _ _ _ h)
    · simp only [Option.some.injEq] at h
      subst h
      exact Frame.same s

theorem LCDLoadUDC_frame (sc : Bool) (n : Nat) (tab : List Nat) (s t : State)
    (h : LCDLoadUDC sc n tab s = some t) : Frame s t := by
  simp only [LCDLoadUDC, Option.bind_eq_bind] at h
  obtain ⟨u, hu, h⟩ := bind_some_elim h
  exact (sendInstruction_frame sc _ _ _ hu).comp (LCDLoadUDC_loop_frame sc tab _ _ _ _ h)

/-! ## A string too long for the 8-bit index -/

theorem LCDDispString_loop_endless (sc : Bool) (str : List Nat)
    (hstr : ∀ i < 256, ∃ ch, str[i]? = some ch ∧ ch ≠ 0) :
    ∀ (fuel i flag : Nat) (s : State), i < 256 →
      LCDDispString_loop sc str fuel i flag s = none
  | 0, _, _, _, _ => rfl
  | fuel + 1, i, flag, s, hi => by
    obtain ⟨ch, hget, hch⟩ := hstr i hi
    obtain ⟨u, hu⟩ := sendData_some sc (ch % 256) s
    have hu2 : LCDDispChar sc ch s = some u := hu
    have hi2 : (i + 1) % 256 < 256 := Nat.mod_lt _ (by decide)
    rw [LCDDispString_loop_step sc str fuel i flag ch s hget hch, hu2, Option.some_bind]
    split
    · obtain ⟨v, hv⟩ := LCDGotoXY_some sc 0 1 u
      rw [hv, Option.some_bind]
      exact LCDDispString_loop_endless sc str hstr fuel _ _ v hi2
    · exact LCDDispString_loop_endless sc str hstr fuel _ _ u hi2

theorem replicate_getElem? (i : Nat) (hi : i < 256) :
    ∃ ch, (List.replicate 256 65 ++ [0])[i]? = some ch ∧ ch ≠ 0 := by
  refine ⟨65, ?_, by decide⟩
  rw [List.getElem?_append_left (by rw [List.length_replicate]; exact hi),
    List.getElem?_replicate, if_pos hi]

/-! ## `LCDLoadUDC` for any slot number -/

theorem LCDLoadUDC_sent_any (sc : Bool) (n : Nat) (p : List Nat) (s : State)
    (hp : p.length = 8) (hb : ∀ x ∈ p, x < 256) :
    ∃ t, LCDLoadUDC sc n p s = some t ∧
      sent s t = some ((false, (0x40 + 8 * n) % 256) :: p.map (fun x => (true, x))) := by
  obtain ⟨t1, c1, h1, hw1, htr1, -, -, hwi1⟩ :=
    sendInstruction_sent sc ((0x40 + 8 * n) % 256) s (Bus.init s) ⟨rfl, rfl, rfl⟩
  obtain ⟨t, c, ht, hw, -, hwi⟩ :=
    LCDLoadUDC_loop_sent sc p hp 8 0 9 s t1 _ c1 rfl (by decide) hw1 htr1
  refine ⟨t, ?_, ?_⟩
  · simp [LCDLoadUDC, h1, ht]
  · rw [sent_eq_wires, hw.observe, hwi, hwi1, wires_init]
    have hmap : p.map (fun x => (true, x % 256)) = p.map (fun x => (true, x)) :=
      List.map_congr_left (fun x hx => by rw [Nat.mod_eq_of_lt (hb x hx)])
    simp [hmap]

/-! ## Claims, continued -/

/-- C11 (the code at the failing input): `readKeys` never returns 0.  Whatever the sample,
the value returned is one of the characters 'N', 'R', 'U', 'D', 'L', 'S'; with no key
pressed (the sample 1023, which equals none of the key values) it is 'N' = 78. -/
theorem C11_readKeys_no_key_returns_N (ADC ACD : Nat) :
    readKeys ADC ACD ∈ [78, 82, 85, 68, 76, 83] ∧ readKeys ADC ACD ≠ 0 ∧
    readKeys 1023 0 = 78 := by
  have h : readKeys ADC ACD ∈ [78, 82, 85, 68, 76, 83] := by
    unfold readKeys
    repeat' split
    all_goals simp
  refine ⟨h, ?_, by decide⟩
  intro h0
  rw [h0] at h
  simp at h

/-- C13: from any state, `sendInstruction(B)` first writes PORTH with only bit 5 (RS) cleared,
then executes one NOP (62.5 ns, at least 40 ns), and every later write to PORTH, those of
`set4DataPins` and `pulse_E`, has bit 5 clear; both nibbles are latched with RS low.
`sendData(B)` does the same with bit 5 set and RS high, and ends with `_delay_us(37)`, so
that at least 37 µs are waited after its second pulse. -/
theorem C13_rs_set_once_then_held (sc : Bool) (B : Nat) (s : State) :
    (∃ t, sendInstruction sc B s = some t ∧
      (emitted s t).take 2 = [Ev.wPORTH ((s.PORTH &&& 0b11011111) % 256), Ev.nop] ∧
      (∀ v, Ev.wPORTH v ∈ emitted s t → v.testBit 5 = false) ∧
      (observe s t).done.map Latch.rs = [false, false]) ∧
    (∃ t, sendData sc B s = some t ∧
      (emitted s t).take 2 = [Ev.wPORTH ((s.PORTH ||| 0b00100000) % 256), Ev.nop] ∧
      (∀ v, Ev.wPORTH v ∈ emitted s t → v.testBit 5 = true) ∧
      (observe s t).done.map Latch.rs = [true, true] ∧
      (emitted s t).getLast? = some (Ev.delay_us 37) ∧
      (observe s t).gap = 1 + 16 * 37) ∧
    2 * 40 ≤ halfNs 1 := by
  refine ⟨?_, ?_, by decide⟩
  · obtain ⟨t, c, ht, hw, -, -, -, l1, hd, hrs, -⟩ :=
      sendInstruction_watch sc B s (Bus.init s) ⟨rfl, rfl, rfl⟩
    have hobs : (observe s t).done.map Latch.rs = [false, false] := by
      rw [hw.observe, hd]
      simp [Bus.init, hrs]
    have ht1 := ht
    simp only [sendInstruction, setPins, pulse_E, set4DataPins, wait_ns_450, wait_ns_50,
      wait_ns_40, Option.bind_eq_bind, Option.some_bind, Option.some.injEq] at ht1
    subst ht1
    refine ⟨_, ht, ?_, ?_, hobs⟩
    · simp [State.setPORTH, State.setPORTE, State.setPORTG, State.NOP, emitted]
    · simp [State.setPORTH, State.setPORTE, State.setPORTG, State.NOP, emitted,
        testBit_mod_256, Nat.testBit_lor, Nat.testBit_land, Nat.testBit_shiftLeft,
        testBit_64, testBit_191, testBit_231, testBit_24, testBit_223]
  · obtain ⟨t, c, ht, hw, -, -, hg, l1, hd, hrs, -⟩ :=
      sendData_watch sc B s (Bus.init s) ⟨rfl, rfl, rfl⟩
    have hobs : (observe s t).done.map Latch.rs = [true, true] := by
      rw [hw.observe, hd]
      simp [Bus.init, hrs]
    have hgap : (observe s t).gap = 1 + 16 * 37 := by
      rw [hw.observe, hg]
    have ht1 := ht
    simp only [sendData, setPins, pulse_E, set4DataPins, wait_ns_450, wait_ns_50,
      wait_ns_40, Option.bind_eq_bind, Option.some_bind, Option.some.injEq] at ht1
    subst ht1
    refine ⟨_, ht, ?_, ?_, hobs, ?_, hgap⟩
    · simp [State.setPORTH, State.setPORTE, State.setPORTG, State.NOP, State.delay_us, emitted]
    · simp [State.setPORTH, State.setPORTE, State.setPORTG, State.NOP, State.delay_us, emitted,
        testBit_mod_256, Nat.testBit_lor, Nat.testBit_land, Nat.testBit_shiftLeft,
        testBit_64, testBit_191, testBit_231, testBit_24, testBit_32]
    · simp [State.setPORTH, State.setPORTE, State.setPORTG, State.NOP, State.delay_us, emitted]

/-- C14: from any state `pulse_E` returns, and what it does is: write PORTH with bit 6 set,
execute 8 NOPs, write PORTH with bit 6 clear, execute 1 NOP.  These are `wait_ns(450)` and
`wait_ns(50)`: 8 NOPs last 500 ns, at least 450 ns, and 1 NOP lasts 62.5 ns, at least
50 ns. -/
theorem C14_pulse_high_8_nops_low_1_nop (sc : Bool) (s : State) :
    (∃ t h1 h2, pulse_E sc s = some t ∧
      emitted s t = [Ev.wPORTH h1, Ev.nop, Ev.nop, Ev.nop, Ev.nop, Ev.nop, Ev.nop, Ev.nop,
        Ev.nop, Ev.wPORTH h2, Ev.nop] ∧
      h1.testBit 6 = true ∧ h2.testBit 6 = false) ∧
    wait_ns sc 450 s = some s.NOP.NOP.NOP.NOP.NOP.NOP.NOP.NOP ∧
    wait_ns sc 50 s = some s.NOP ∧
    2 * 450 ≤ halfNs 8 ∧ 2 * 50 ≤ halfNs 1 := by
  refine ⟨?_, wait_ns_450 sc s, wait_ns_50 sc s, by decide, by decide⟩
  simp only [pulse_E, wait_ns_450, wait_ns_50, Option.bind_eq_bind, Option.some_bind]
  refine ⟨_, (s.PORTH ||| 0b01000000) % 256,
    ((s.PORTH ||| 0b01000000) % 256 &&& 0b10111111) % 256, rfl, ?_, ?_, ?_⟩
  · simp [State.setPORTH, State.NOP, emitted]
  · simp [testBit_mod_256, Nat.testBit_lor, testBit_64]
  · simp [testBit_mod_256, Nat.testBit_land, testBit_191]

/-- C15 (counterexample): `wait_ns(63)` executes one NOP, 62.5 ns, which is less than 63 ns,
whether plain `char` is signed or not; `wait_ns(16128)` executes none at all, because
16128/63 = 256 does not fit the 8-bit `nops`; and where plain `char` is signed,
`wait_ns(8064)`, which asks for 128 NOPs, does not return. -/
theorem C15_wait_ns_63_one_nop :
    (wait_ns true 63 State.reset = some (State.reset.NOPs 1) ∧
      wait_ns false 63 State.reset = some (State.reset.NOPs 1) ∧ halfNs 1 < 2 * 63) ∧
    (wait_ns true 16128 State.reset = some (State.reset.NOPs 0) ∧
      wait_ns false 16128 State.reset = some (State.reset.NOPs 0) ∧ halfNs 0 < 2 * 16128) ∧
    wait_ns true 8064 State.reset = none :=
  ⟨⟨rfl, rfl, by decide⟩, ⟨rfl, rfl, by decide⟩,
   wait_ns_loop_signed_128 257 0 State.reset (by decide)⟩

/-- C15 (amended): for every duration the driver asks for, 450, 50 and 40 ns, and for every
`t` up to 62, `wait_ns(t)` returns and the `n` NOPs it has executed last at least `t`:
`n * 62.5 ≥ t`, with 8, 1 and 1 NOPs for 450, 50 and 40.  For every `t` up to 8001 it
returns after `t/63` rounded up NOPs. -/
theorem C15_wait_ns_long_enough_where_used (sc : Bool) (s : State) :
    (∀ t, t ≤ 62 ∨ t = 450 → ∃ n, wait_ns sc t s = some (s.NOPs n) ∧ 2 * t ≤ halfNs n) ∧
    (wait_ns sc 450 s = some (s.NOPs 8) ∧ wait_ns sc 50 s = some (s.NOPs 1) ∧
      wait_ns sc 40 s = some (s.NOPs 1)) ∧
    ∀ t, t ≤ 8001 → wait_ns sc t s = some (s.NOPs ((t + 62) / 63)) := by
  refine ⟨?_, ⟨wait_ns_runs sc 450 s (by decide), wait_ns_runs sc 50 s (by decide),
    wait_ns_runs sc 40 s (by decide)⟩, fun t ht => wait_ns_runs sc t s ht⟩
  intro t ht
  refine ⟨(t + 62) / 63, wait_ns_runs sc t s (by omega), ?_⟩
  unfold halfNs
  omega

/-- Witness for C15: the 450 ns the driver holds E high for, 8 NOPs or 500 ns. -/
theorem C15_witness :
    ((450 : Nat) ≤ 62 ∨ (450 : Nat) = 450) ∧
    ∃ n, wait_ns true 450 State.reset = some (State.reset.NOPs n) ∧ 2 * 450 ≤ halfNs n :=
  ⟨Or.inr rfl,
   (C15_wait_ns_long_enough_where_used true State.reset).1 450 (Or.inr rfl)⟩

/-- C16: entered with PORTH, PORTE and PORTG all zero, `LCDInit` returns; its first three
events set the direction bits of the six LCD lines (DDRH bits 3..6, DDRE bit 3, DDRG bit 5),
which are set at the end; the controller then sees four single pulses before the ten
pulses of the five instructions: the first three with 0011 on DB7..DB4 and the fourth with
0010, all with RS low and the lines steady, preceded by 50 ms, 10 ms, 10 ms and 10 ms of
waiting (plus one NOP), which is at least 15 ms, 4.1 ms, 100 µs and 100 µs. -/
theorem C16_bootstrap_from_reset (sc : Bool) (s : State) (hH : s.PORTH = 0) (hE : s.PORTE = 0)
    (hG : s.PORTG = 0) :
    ∃ t, LCDInit sc s = some t ∧
      (emitted s t).take 3 = [Ev.wDDRH ((s.DDRH ||| 0b01111000) % 256),
        Ev.wDDRE ((s.DDRE ||| 0b00001000) % 256), Ev.wDDRG ((s.DDRG ||| 0b00100000) % 256)] ∧
      (t.DDRH.testBit 3 = true ∧ t.DDRH.testBit 4 = true ∧ t.DDRH.testBit 5 = true ∧
        t.DDRH.testBit 6 = true ∧ t.DDRE.testBit 3 = true ∧ t.DDRG.testBit 5 = true) ∧
      (observe s t).done.take 4
        = [⟨false, 0b0011, 16000 * 50, 8, true⟩, ⟨false, 0b0011, 16000 * 10 + 1, 8, true⟩,
           ⟨false, 0b0011, 16000 * 10 + 1, 8, true⟩,
           ⟨false, 0b0010, 16000 * 10 + 1, 8, true⟩] ∧
      (observe s t).done.length = 4 + 2 * 5 ∧
      16000 * 15 ≤ 16000 * 50 ∧ 16 * 4100 ≤ 16000 * 10 + 1 ∧ 16 * 100 ≤ 16000 * 10 + 1 := by
  obtain ⟨t, ht, dH, dE, dG, hev, hdone, -⟩ := LCDInit_from_zero sc s hH hE hG
  refine ⟨t, ht, ?_, ?_, ?_, ?_, by decide, by decide, by decide⟩
  · have h3 : (emitted s t).take 3 = ((emitted s t).take 4).take 3 := by
      rw [List.take_take]
      rfl
    rw [h3, hev]
    rfl
  · rw [dH, dE, dG]
    simp [testBit_mod_256, Nat.testBit_lor, testBit_120, testBit_8, testBit_32]
  · rw [hdone]
    rfl
  · rw [hdone]
    rfl

/-- Witness for C16: the reset state. -/
theorem C16_witness :
    (State.reset.PORTH = 0 ∧ State.reset.PORTE = 0 ∧ State.reset.PORTG = 0) ∧
    ∃ t, LCDInit true State.reset = some t ∧
      (emitted State.reset t).take 3 = [Ev.wDDRH 0x78, Ev.wDDRE 0x08, Ev.wDDRG 0x20] ∧
      (observe State.reset t).done.take 4
        = [⟨false, 0b0011, 16000 * 50, 8, true⟩, ⟨false, 0b0011, 16000 * 10 + 1, 8, true⟩,
           ⟨false, 0b0011, 16000 * 10 + 1, 8, true⟩,
           ⟨false, 0b0010, 16000 * 10 + 1, 8, true⟩] ∧
      (observe State.reset t).done.length = 4 + 2 * 5 := by
  refine ⟨⟨rfl, rfl, rfl⟩, ?_⟩
  obtain ⟨t, ht, hev, -, hboot, hlen, -⟩ :=
    C16_bootstrap_from_reset true State.reset rfl rfl rfl
  exact ⟨t, ht, hev, hboot, hlen⟩

/-- C17 (the code at the failing input): in `LCDInit` run from the reset state, the fifth
pulse, which carries the first nibble of the function-set instruction 0x28, rises after
only 2 clock cycles of waiting (the NOP of `wait_ns(50)` and the NOP of `wait_ns(40)`),
that is 125 ns after the fourth bootstrap pulse fell, far less than 37 µs. -/
theorem C17_no_wait_after_fourth_bootstrap_pulse (sc : Bool) :
    ∃ t, LCDInit sc State.reset = some t ∧
      (observe State.reset t).done[3]? = some ⟨false, 0b0010, 16000 * 10 + 1, 8, true⟩ ∧
      (observe State.reset t).done[4]? = some ⟨false, 2, 2, 8, true⟩ ∧
      halfNs 2 < 2 * 37000 := by
  obtain ⟨t, ht, -, -, -, -, hdone, -⟩ := LCDInit_from_zero sc State.reset rfl rfl rfl
  refine ⟨t, ht, ?_, ?_, by decide⟩
  · rw [hdone]
    rfl
  · rw [hdone]
    rfl

/-- C18 (counterexample): `LCDLoadUDC(8, p)` does send something, and the instruction byte
it sends is 0x80: bit 7 is set (a set-DDRAM-address instruction) and bits 7..6 are 10,
not 01. -/
theorem C18_slot_8_sends_0x80 :
    ∃ t, LCDLoadUDC true 8 [1, 2, 3, 4, 5, 6, 7, 8] State.reset = some t ∧
      sent State.reset t = some [(false, 0x80), (true, 1), (true, 2), (true, 3), (true, 4),
        (true, 5), (true, 6), (true, 7), (true, 8)] ∧
      Nat.testBit 0x80 7 = true ∧ 0x80 / 64 ≠ 1 := by
  obtain ⟨t, ht, hs⟩ := LCDLoadUDC_sent_any true 8 [1, 2, 3, 4, 5, 6, 7, 8] State.reset
    (by decide) (by decide)
  exact ⟨t, ht, hs, by decide, by decide⟩

/-- C18 (amended): `LCDLoadUDC` does not check the slot number: for every `UDCNo`
and every pattern of eight bytes it sends the instruction byte `(0x40 + 8*UDCNo) mod 256`
and then the eight pattern bytes as data; that byte is a set-CGRAM-address instruction
(bits 7..6 = 01) exactly when `UDCNo mod 32 < 8`, and has bit 7 set exactly when
`UDCNo mod 32` is in 8..23. -/
theorem C18_loadUDC_no_slot_check (sc : Bool) (UDCNo : Nat) (p : List Nat) (s : State)
    (hp : p.length = 8) (hb : ∀ x ∈ p, x < 256) :
    ∃ t, LCDLoadUDC sc UDCNo p s = some t ∧
      sent s t = some ((false, (0x40 + 8 * UDCNo) % 256) :: p.map (fun x => (true, x))) ∧
      ((0x40 + 8 * UDCNo) % 256 / 64 = 1 ↔ UDCNo % 32 < 8) ∧
      (128 ≤ (0x40 + 8 * UDCNo) % 256 ↔ 8 ≤ UDCNo % 32 ∧ UDCNo % 32 < 24) := by
  obtain ⟨t, ht, hs⟩ := LCDLoadUDC_sent_any sc UDCNo p s hp hb
  refine ⟨t, ht, hs, ?_, ?_⟩
  · omega
  · omega

/-- Witness for C18 (amended): slot 40 wraps around to the address byte 0x80. -/
theorem C18_witness :
    ([1, 2, 3, 4, 5, 6, 7, 8].length = 8 ∧ ∀ x ∈ [1, 2, 3, 4, 5, 6, 7, 8], x < 256) ∧
    ∃ t, LCDLoadUDC true 40 [1, 2, 3, 4, 5, 6, 7, 8] State.reset = some t ∧
      sent State.reset t = some [(false, 0x80), (true, 1), (true, 2), (true, 3), (true, 4),
        (true, 5), (true, 6), (true, 7), (true, 8)] := by
  refine ⟨⟨by decide, by decide⟩, ?_⟩
  obtain ⟨t, ht, hs, -⟩ := C18_loadUDC_no_slot_check true 40 [1, 2, 3, 4, 5, 6, 7, 8]
    State.reset (by decide) (by decide)
  exact ⟨t, ht, hs⟩

/-- C19 (the code at the failing input): on the string of 256 characters 'A' followed by NUL
the loop of `LCDDispString` never ends, whatever the fuel: the 8-bit index wraps from 255
to 0 and never reaches the NUL at index 256. -/
theorem C19_dispString_256_chars_endless (sc : Bool) (s : State) :
    (∀ fuel flag, LCDDispString_loop sc (List.replicate 256 65 ++ [0]) fuel 0 flag s = none) ∧
    LCDDispString sc (List.replicate 256 65 ++ [0]) s = none := by
  constructor
  · intro fuel flag
    exact LCDDispString_loop_endless sc (List.replicate 256 65 ++ [0]) replicate_getElem?
      fuel 0 flag s (Nat.zero_lt_succ _)
  · obtain ⟨u, hu⟩ := LCDClear_some sc s
    have h := LCDDispString_loop_endless sc (List.replicate 256 65 ++ [0]) replicate_getElem?
      513 0 1 u (Nat.zero_lt_succ _)
    unfold LCDDispString
    rw [Option.bind_eq_bind, hu, Option.some_bind]
    exact h

/-- C20: from any state, every public display operation leaves the bits of PORTH outside
0x78, of PORTE outside 0x08 and of PORTG outside 0x20 as they were.  The operations that
always return are shown to return; for `LCDDispString`, `LCDDispInteger` and `LCDLoadUDC`,
which need not return on every memory content, this holds of every state returned. -/
theorem C20_only_lcd_lines_written (sc : Bool) (s : State) :
    (∃ t, LCDInit sc s = some t ∧ Frame s t) ∧
    (∃ t, LCDClear sc s = some t ∧ Frame s t) ∧
    (∀ x y, ∃ t, LCDGotoXY sc x y s = some t ∧ Frame s t) ∧
    (∀ ch, ∃ t, LCDDispChar sc ch s = some t ∧ Frame s t) ∧
    (∀ str t, LCDDispString sc str s = some t → Frame s t) ∧
    (∀ i stack t, LCDDispInteger sc i stack s = some t → Frame s t) ∧
    (∀ n tab t, LCDLoadUDC sc n tab s = some t → Frame s t) ∧
    (∀ cursor blink, ∃ t, LCDOnOffControl sc cursor blink s = some t ∧ Frame s t) ∧
    (∃ t, LCDCursorLeft sc s = some t ∧ Frame s t) ∧
    (∃ t, LCDCursorRight sc s = some t ∧ Frame s t) ∧
    (∃ t, LCDShiftLeft sc s = some t ∧ Frame s t) ∧
    (∃ t, LCDShiftRight sc s = some t ∧ Frame s t) := by
  refine ⟨?_, ?_, ?_, ?_, ?_, ?_, ?_, ?_, ?_, ?_, ?_, ?_⟩
  · obtain ⟨t, ht⟩ := LCDInit_some sc s
    exact ⟨t, ht, LCDInit_frame sc s t ht⟩
  · obtain ⟨t, ht⟩ := LCDClear_some sc s
    exact ⟨t, ht, LCDClear_frame sc s t ht⟩
  · intro x y
    obtain ⟨t, ht⟩ := LCDGotoXY_some sc x y s
    exact ⟨t, ht, LCDGotoXY_frame sc x y s t ht⟩
  · intro ch
    obtain ⟨t, ht⟩ := sendData_some sc (ch % 256) s
    exact ⟨t, ht, sendData_frame sc _ s t ht⟩
  · intro str t ht
    exact LCDDispString_frame sc str s t ht
  · intro i stack t ht
    exact LCDDispInteger_frame sc i stack s t ht
  · intro n tab t ht
    exact LCDLoadUDC_frame sc n tab s t ht
  · intro cursor blink
    obtain ⟨t, ht⟩ := sendInstruction_some sc
      ((((0b00001100 ||| (0b00000010 &&& (cursor <<< 1))) % 256) ||| (0b00000001 &&& blink))
        % 256) s
    exact ⟨t, ht, sendInstruction_frame sc _ s t ht⟩
  · obtain ⟨t, ht⟩ := sendInstruction_some sc 0b00010000 s
    exact ⟨t, ht, sendInstruction_frame sc _ s t ht⟩
  · obtain ⟨t, ht⟩ := sendInstruction_some sc 0b00010100 s
    exact ⟨t, ht, sendInstruction_frame sc _ s t ht⟩
  · obtain ⟨t, ht⟩ := sendInstruction_some sc 0b00011000 s
    exact ⟨t, ht, sendInstruction_frame sc _ s t ht⟩
  · obtain ⟨t, ht⟩ := sendInstruction_some sc 0b00011100 s
    exact ⟨t, ht, sendInstruction_frame sc _ s t ht⟩

/-- Witness for C20: `LCDDispString("A")` and `LCDLoadUDC(0, p)` from a state whose three
ports are all ones return, with the other bits still set. -/
theorem C20_witness :
    (∃ t, LCDDispString true [65, 0] ⟨255, 255, 255, 0, 0, 0, []⟩ = some t ∧
      Frame ⟨255, 255, 255, 0, 0, 0, []⟩ t) ∧
    (∃ t, LCDLoadUDC true 0 [1, 2, 3, 4, 5, 6, 7, 8] ⟨255, 255, 255, 0, 0, 0, []⟩ = some t ∧
      Frame ⟨255, 255, 255, 0, 0, 0, []⟩ t) := by
  constructor
  · obtain ⟨t, ht⟩ := LCDDispString_some true [65] [] ⟨255, 255, 255, 0, 0, 0, []⟩
      (by decide) (by decide)
    exact ⟨t, ht, (C20_only_lcd_lines_written true ⟨255, 255, 255, 0, 0, 0, []⟩).2.2.2.2.1 _ t ht⟩
  · obtain ⟨t, ht, -⟩ := LCDLoadUDC_sent_any true 0 [1, 2, 3, 4, 5, 6, 7, 8]
      ⟨255, 255, 255, 0, 0, 0, []⟩ (by decide) (by decide)
    exact ⟨t, ht,
      (C20_only_lcd_lines_written true ⟨255, 255, 255, 0, 0, 0, []⟩).2.2.2.2.2.2.1 _ _ t ht⟩


end LCD162
